import Mathlib

/-!
# Verification of the bet-settlement engine

Shallow embedding of the casino backend's bet-settlement engine and the
services it orchestrates, translated from the TypeScript sources:

* `WalletService`       — src/backend (walletService): balance read, credit, debit
* `JackpotService`      — jackpot pool contribution, value read, award-and-reset
* `VIPService`          — experience ledger: `getCurrentLevel`, `awardXP`
* `VIPRewardService`    — level-up rewards and loss cashback
* `BetService.placeBet` — the atomic bet placement orchestrator and its
  private `updateWageringProgress` helper

Modelling conventions:

* Monetary amounts, experience and rates are `ℚ` (the source uses JS numbers
  read from SQL `numeric` columns; binary floating point is not modelled).
* Each SQL table is a `List` of row structures.  `SELECT ... LIMIT 1` is
  `List.find?`; `UPDATE ... WHERE` rewrites every matching row;
  `ORDER BY c ASC/DESC LIMIT 1` is the first row attaining the least/greatest
  value of `c` (the result a stable sort would produce).
* The drizzle `db.transaction` callback in `placeBet` receives a handle `tx`,
  but `WalletService`, `JackpotService`, `VIPService` and `VIPRewardService`
  all issue their statements on the process-wide `db` connection, which
  auto-commits each statement.  Only the `games` read, the `bonusTasks`
  update and the `betLogs` insert go through `tx`.  The `tx`-touched tables
  and the `db`-touched tables are disjoint, so the embedding threads a single
  store and, when the callback throws, restores exactly the `tx`-written
  tables (`bonusTasks`, `betLogs`) to their pre-call contents while keeping
  every `db`-side mutation — this is the observable behaviour of the source.
* `RNGService.generateOutcome` draws from `Math.random`; the engine treats it
  as an oracle, so the outcome is a parameter of `placeBet`.
* `WebSocketService.broadcastToUser` synchronously sends on every matching
  socket and may therefore throw; delivery failure is modelled by a Boolean
  fault parameter `notifyFails`.
* JS `Number.toFixed(2)` (used when a jackpot pool is reset to its seed) is
  modelled as rounding to two decimal places.
* `zod` schema checks that precede each operation are modelled where they can
  fail on the numeric arguments (`positive()`, `nonnegative()`); a violation
  yields the error string "ValidationError".
-/

/-- Bet type chosen for a wager: which balance funds it. -/
inductive BetType where
  | real
  | bonus
deriving Repr, DecidableEq

/-- Jackpot pool level (the `level` pg enum: mini / minor / major / grand). -/
inductive JackpotLevel where
  | mini
  | minor
  | major
  | grand
deriving Repr, DecidableEq

/-- One row of the `games` table, restricted to the columns `placeBet` selects. -/
structure Game where
  id : Nat
  rtp : ℚ
  jackpotGroup : Option Nat
  minBet : ℚ
  maxBet : ℚ
deriving Repr, DecidableEq

/-- One row of the `wallets` table (per user × operator dual balance). -/
structure WalletRow where
  userId : Nat
  operatorId : Nat
  realBalance : ℚ
  bonusBalance : ℚ
deriving Repr, DecidableEq

/-- The `{ realBalance, bonusBalance }` projection returned by wallet queries. -/
structure Balances where
  realBalance : ℚ
  bonusBalance : ℚ
deriving Repr, DecidableEq

/-- One row of the `jackpot_pools` table. -/
structure JackpotPool where
  group : Nat
  level : JackpotLevel
  currentValue : ℚ
  seedValue : ℚ
  contributionRate : ℚ
  isActive : Bool
deriving Repr, DecidableEq

/-- One row of the `jackpots` table (a recorded jackpot win). -/
structure JackpotWinRec where
  group : Nat
  level : JackpotLevel
  userId : Nat
  operatorId : Nat
  gameId : Nat
  amount : ℚ
deriving Repr, DecidableEq

/-- One row of the `bonus_tasks` table (`type` is called `taskType`: `type`
is a Lean keyword). -/
structure BonusTask where
  id : Nat
  userId : Nat
  operatorId : Nat
  taskType : String
  awardedAmount : ℚ
  wageringRequired : ℚ
  wagered : ℚ
  isCompleted : Bool
  createdAt : Nat
deriving Repr, DecidableEq

/-- One row of the `vip_levels` threshold table. -/
structure VipLevelRow where
  level : ℚ
  name : String
  minExperience : ℚ
  cashbackRate : ℚ
  freeSpinsPerMonth : ℚ
deriving Repr, DecidableEq

/-- One row of the `users` table, restricted to the loyalty ledger column. -/
structure UserRow where
  id : Nat
  vipExperience : ℚ
deriving Repr, DecidableEq

/-- The wagering-progress snapshot `updateWageringProgress` returns. -/
structure WageringProgress where
  taskId : Nat
  taskType : String
  wagered : ℚ
  required : ℚ
  isCompleted : Bool
deriving Repr, DecidableEq

/-- One row of the `bet_logs` audit table, as inserted by `placeBet`. -/
structure BetLog where
  userId : Nat
  operatorId : Nat
  gameId : Nat
  wager : ℚ
  win : ℚ
  betType : BetType
  preRealBalance : ℚ
  postRealBalance : ℚ
  preBonusBalance : ℚ
  postBonusBalance : ℚ
  jackpotContribution : ℚ
  vipPointsAdded : ℚ
  ggrContribution : ℚ
  wageringProgress : Option WageringProgress
deriving Repr, DecidableEq

/-- The database store: every table the settlement sequence touches. -/
structure DB where
  games : List Game
  wallets : List WalletRow
  pools : List JackpotPool
  jackpotWins : List JackpotWinRec
  users : List UserRow
  vipLevels : List VipLevelRow
  bonusTasks : List BonusTask
  betLogs : List BetLog
deriving Repr, DecidableEq

deriving instance DecidableEq for Except

/-- JS `x.toFixed(2)` on an exact decimal, as written back when a pool is
reset to its seed: round to two decimal places. -/
def toFixed2 (q : ℚ) : ℚ := (round (q * 100) : ℤ) / 100

namespace WalletService

/-- `WalletService.getWalletBalances`: `SELECT realBalance, bonusBalance FROM
wallets WHERE userId = u AND operatorId = o LIMIT 1`, `null` when absent. -/
def getWalletBalances (db : DB) (u o : Nat) : Option Balances :=
  (db.wallets.find? fun r => r.userId == u && r.operatorId == o).map
    fun r => { realBalance := r.realBalance, bonusBalance := r.bonusBalance }

/-- `WalletService.creditToWallet`: zod requires `amount > 0`; a single
`UPDATE wallets SET balance = balance + amount` on the chosen column; throws
"Wallet not found" when no row was updated. -/
def creditToWallet (db : DB) (u o : Nat) (amount : ℚ) (isReal : Bool) :
    Except String (Balances × DB) :=
  if ¬(0 < amount) then .error "ValidationError"
  else
    let wallets' := db.wallets.map fun r =>
      if r.userId == u && r.operatorId == o then
        if isReal then { r with realBalance := r.realBalance + amount }
        else { r with bonusBalance := r.bonusBalance + amount }
      else r
    match wallets'.find? fun r => r.userId == u && r.operatorId == o with
    | none => .error "Wallet not found"
    | some r =>
        .ok ({ realBalance := r.realBalance, bonusBalance := r.bonusBalance },
             { db with wallets := wallets' })

/-- `WalletService.debitFromWallet`: zod requires `amount > 0`; a fresh
balance read, then "Wallet not found" / "Insufficient balance" checks, then
a single `UPDATE ... SET balance = balance - amount`. -/
def debitFromWallet (db : DB) (u o : Nat) (amount : ℚ) (isReal : Bool) :
    Except String (Balances × DB) :=
  if ¬(0 < amount) then .error "ValidationError"
  else
    match getWalletBalances db u o with
    | none => .error "Wallet not found"
    | some balances =>
        let currentBalance := if isReal then balances.realBalance else balances.bonusBalance
        if currentBalance < amount then .error "Insufficient balance"
        else
          let wallets' := db.wallets.map fun r =>
            if r.userId == u && r.operatorId == o then
              if isReal then { r with realBalance := r.realBalance - amount }
              else { r with bonusBalance := r.bonusBalance - amount }
            else r
          match wallets'.find? fun r => r.userId == u && r.operatorId == o with
          | none => .error "Wallet not found"
          | some r =>
              .ok ({ realBalance := r.realBalance, bonusBalance := r.bonusBalance },
                   { db with wallets := wallets' })

end WalletService

namespace JackpotService

/-- `JackpotService.getJackpotPoolsForGroup`: active pools of a group. -/
def getJackpotPoolsForGroup (db : DB) (grp : Nat) : List JackpotPool :=
  db.pools.filter fun p => p.group == grp && p.isActive

/-- `JackpotService.calculateContributions`: `wager × contributionRate` per
active pool of the group. -/
def calculateContributions (db : DB) (wager : ℚ) (grp : Nat) :
    List (JackpotLevel × ℚ) :=
  (getJackpotPoolsForGroup db grp).map fun p => (p.level, wager * p.contributionRate)

/-- `JackpotService.contributeToJackpot`: zod requires a nonnegative amount;
`UPDATE jackpot_pools SET currentValue = currentValue + amount` keyed on
(group, level) — no `isActive` filter; "Jackpot pool not found" when no row. -/
def contributeToJackpot (db : DB) (grp : Nat) (lvl : JackpotLevel) (amount : ℚ) :
    Except String (ℚ × DB) :=
  if amount < 0 then .error "ValidationError"
  else
    let pools' := db.pools.map fun p =>
      if p.group == grp && p.level == lvl then
        { p with currentValue := p.currentValue + amount }
      else p
    match pools'.find? fun p => p.group == grp && p.level == lvl with
    | none => .error "Jackpot pool not found"
    | some p => .ok (p.currentValue, { db with pools := pools' })

/-- `JackpotService.getJackpotValue`: the current value of an *active*
(group, level) pool, `null` when inactive or missing. -/
def getJackpotValue (db : DB) (grp : Nat) (lvl : JackpotLevel) : Option ℚ :=
  (db.pools.find? fun p => p.group == grp && p.level == lvl && p.isActive).map
    fun p => p.currentValue

/-- `JackpotService.awardJackpot`: zod requires `amount > 0`; inserts a win
record, re-reads the pool's seed, and when the pool exists writes
`currentValue := seedValue.toFixed(2)`.  Runs entirely on the shared `db`
connection. -/
def awardJackpot (db : DB) (grp : Nat) (lvl : JackpotLevel)
    (u o gid : Nat) (amount : ℚ) : Except String DB :=
  if ¬(0 < amount) then .error "ValidationError"
  else
    let winRec : JackpotWinRec :=
      { group := grp, level := lvl, userId := u, operatorId := o,
        gameId := gid, amount := amount }
    let db1 := { db with jackpotWins := db.jackpotWins ++ [winRec] }
    match db1.pools.find? fun p => p.group == grp && p.level == lvl with
    | none => .ok db1
    | some pool =>
        .ok { db1 with pools := db1.pools.map fun p =>
          if p.group == grp && p.level == lvl then
            { p with currentValue := toFixed2 pool.seedValue }
          else p }

end JackpotService

namespace VIPService

/-- `VIPService.getCurrentLevel`: as written in the source, this selects
`WHERE minExperience >= xp ORDER BY minExperience ASC LIMIT 1` — the lowest
level whose threshold is at least `xp`. -/
def getCurrentLevel (db : DB) (xp : ℚ) : Option VipLevelRow :=
  (db.vipLevels.filter fun l => xp ≤ l.minExperience).foldl
    (fun best l =>
      match best with
      | none => some l
      | some b => if l.minExperience < b.minExperience then some l else b)
    none

/-- The level-up payload `awardXP` may return. -/
structure LevelUp where
  newLevel : ℚ
  levelName : String
deriving Repr, DecidableEq

/-- `awardXP`'s `{ newXP, levelUp? }` result. -/
structure VipUpdate where
  newXP : ℚ
  levelUp : Option LevelUp
deriving Repr, DecidableEq

/-- `VIPService.awardXP`: zod requires `xpAmount ≥ 0` and `multiplier > 0`;
reads the user's experience, applies `experience += xpAmount × multiplier`
as a relative update, and reports a level-up iff the post level (per
`getCurrentLevel`) exists and is strictly above the pre level (or there was
no pre level). -/
def awardXP (db : DB) (u : Nat) (xpAmount multiplier : ℚ) :
    Except String (VipUpdate × DB) :=
  if ¬(0 ≤ xpAmount) ∨ ¬(0 < multiplier) then .error "ValidationError"
  else
    let xpToAdd := xpAmount * multiplier
    match db.users.find? fun r => r.id == u with
    | none => .error "User not found"
    | some user =>
        let currentXP := user.vipExperience
        let newXP := currentXP + xpToAdd
        let db' := { db with users := db.users.map fun r =>
          if r.id == u then { r with vipExperience := r.vipExperience + xpToAdd } else r }
        let currentLevel := getCurrentLevel db' newXP
        let previousLevel := getCurrentLevel db' currentXP
        let levelUp : Option LevelUp :=
          match currentLevel with
          | none => none
          | some c =>
              match previousLevel with
              | none => some { newLevel := c.level, levelName := c.name }
              | some p =>
                  if p.level < c.level then some { newLevel := c.level, levelName := c.name }
                  else none
        .ok ({ newXP := newXP, levelUp := levelUp }, db')

end VIPService

namespace VIPRewardService

/-- `VIPRewardService.getCurrentVIPLevel`: `WHERE minExperience <= xp ORDER BY
minExperience DESC LIMIT 1` — the highest level whose threshold is met. -/
def getCurrentVIPLevel (db : DB) (xp : ℚ) : Option VipLevelRow :=
  (db.vipLevels.filter fun l => l.minExperience ≤ xp).foldl
    (fun best l =>
      match best with
      | none => some l
      | some b => if b.minExperience < l.minExperience then some l else b)
    none

/-- `VIPRewardService.getVIPLevel`: lookup by level number. -/
def getVIPLevel (db : DB) (lvl : ℚ) : Option VipLevelRow :=
  db.vipLevels.find? fun l => l.level == lvl

/-- `VIPRewardService.applyLevelUpRewards`: zod requires `newLevel > 0`;
"VIP level not found" when the level row is absent; credits
`freeSpinsPerMonth` to the *bonus* balance when positive. -/
def applyLevelUpRewards (db : DB) (u o : Nat) (newLevel : ℚ) :
    Except String ((ℚ × ℚ) × DB) :=
  if ¬(0 < newLevel) then .error "ValidationError"
  else
    match getVIPLevel db newLevel with
    | none => .error "VIP level not found"
    | some vipLevel =>
        if 0 < vipLevel.freeSpinsPerMonth then
          match WalletService.creditToWallet db u o vipLevel.freeSpinsPerMonth false with
          | .error e => .error e
          | .ok (_, db') => .ok ((vipLevel.freeSpinsPerMonth, vipLevel.cashbackRate), db')
        else .ok ((0, vipLevel.cashbackRate), db)

/-- `VIPRewardService.applyCashback`: zod requires `lossAmount > 0`; reads the
user's (already updated) experience, derives the level via
`getCurrentVIPLevel`, and credits `lossAmount × cashbackRate / 100` to the
*bonus* balance when positive. -/
def applyCashback (db : DB) (u o : Nat) (lossAmount : ℚ) :
    Except String (ℚ × DB) :=
  if ¬(0 < lossAmount) then .error "ValidationError"
  else
    match db.users.find? fun r => r.id == u with
    | none => .error "User not found"
    | some user =>
        match getCurrentVIPLevel db user.vipExperience with
        | none => .ok (0, db)
        | some vipLevel =>
            if vipLevel.cashbackRate ≤ 0 then .ok (0, db)
            else
              let cashbackAmount := lossAmount * (vipLevel.cashbackRate / 100)
              if 0 < cashbackAmount then
                match WalletService.creditToWallet db u o cashbackAmount false with
                | .error e => .error e
                | .ok (_, db') => .ok (cashbackAmount, db')
              else .ok (cashbackAmount, db)

end VIPRewardService

/-- The effect type of the settlement callback: threads the store and may
throw.  An error keeps the store reached so far — statements issued by the
singleton services auto-commit on the shared connection and survive a later
throw; the transactional rollback is applied by the `placeBet` wrapper. -/
def BetM (α : Type) : Type := DB → Except String α × DB

namespace BetM

/-- Monadic return: no store change. -/
def pureB (a : α) : BetM α := fun db => (.ok a, db)

/-- Monadic bind: sequence two effects, short-circuiting on error while
keeping the store reached. -/
def bindB (x : BetM α) (f : α → BetM β) : BetM β := fun db =>
  match x db with
  | (.ok a, db') => f a db'
  | (.error e, db') => (.error e, db')

instance : Monad BetM where
  pure := pureB
  bind := bindB

/-- `throw` inside the callback: the error propagates, the store stays. -/
def throwB (e : String) : BetM α := fun db => (.error e, db)

/-- Read the store (a query on either connection). -/
def getDB : BetM DB := fun db => (.ok db, db)

/-- Replace the store (a statement's effect). -/
def setDB (db : DB) : BetM Unit := fun _ => (.ok () , db)

/-- Lift a service call; on a service error no statement was executed, so the
store is unchanged. -/
def svc (f : DB → Except String (α × DB)) : BetM α := fun db =>
  match f db with
  | .ok (a, db') => (.ok a, db')
  | .error e => (.error e, db)

end BetM

/-- The `ORDER BY createdAt DESC LIMIT 1` selection over the active tasks of
a wallet: the first row attaining the greatest `createdAt`. -/
def latestActiveTask (db : DB) (u o : Nat) : Option BonusTask :=
  (db.bonusTasks.filter fun t =>
    t.userId == u && t.operatorId == o && t.isCompleted == false).foldl
    (fun best t =>
      match best with
      | none => some t
      | some b => if b.createdAt < t.createdAt then some t else b)
    none

/-- `BetService.updateWageringProgress` (private helper, via `tx`): on a
bonus bet, select the active (`isCompleted = false`) tasks of the wallet
ordered by `createdAt DESC` and advance the first; mark it completed when the
new total reaches `wageringRequired`, and credit
`awardedAmount − (newWagered − wagerAmount)` to the real balance when that
remainder is positive. -/
def updateWageringProgress (u o : Nat) (betType : BetType) (wagerAmount : ℚ) :
    BetM (Option WageringProgress) := fun db =>
  if betType == BetType.bonus then
    match latestActiveTask db u o with
    | none => (.ok none, db)
    | some task =>
        let newWagered := task.wagered + wagerAmount
        let required := task.wageringRequired
        let completed : Bool := decide (required ≤ newWagered)
        let db1 := { db with bonusTasks := db.bonusTasks.map fun t =>
          if t.id == task.id then { t with wagered := newWagered, isCompleted := completed }
          else t }
        let prog : Option WageringProgress :=
          some { taskId := task.id, taskType := task.taskType,
                 wagered := newWagered, required := required,
                 isCompleted := completed }
        if completed then
          let remainingBonus := task.awardedAmount - (newWagered - wagerAmount)
          if 0 < remainingBonus then
            match WalletService.creditToWallet db1 u o remainingBonus true with
            | .error e => (.error e, db1)
            | .ok (_, db2) => (.ok prog, db2)
          else (.ok prog, db1)
        else (.ok prog, db1)
  else (.ok none, db)

/-- The Outcome Oracle's reply (`RNGService.generateOutcome` draws from
`Math.random`, so the engine receives it as an opaque value). -/
structure Outcome where
  winAmount : ℚ
  multiplier : ℚ
  isJackpotWin : Bool
  outcomeLabel : String
deriving Repr, DecidableEq

/-- The input of `placeBet` (ids are abstract; zod's `wager positive` check
is applied by the wrapper before the transaction opens). -/
structure PlaceBetInput where
  userId : Nat
  operatorId : Nat
  gameId : Nat
  wager : ℚ
deriving Repr, DecidableEq

/-- The `SettlementResult` value `placeBet` resolves with. -/
structure BetResult where
  outcome : Outcome
  balances : Balances
  vipUpdate : VIPService.VipUpdate
  wageringProgress : Option WageringProgress
  jackpotContribution : ℚ
  betLogId : Nat
deriving Repr, DecidableEq

namespace BetService

open BetM

/-- Steps 1–3 of `placeBet`: game lookup (`tx` read), wager bounds, wallet
read and bet-type choice.  Pure reads: no store mutation. -/
def phaseValidate (i : PlaceBetInput) : BetM (Game × Balances × BetType) := fun db =>
  match db.games.find? fun g => g.id == i.gameId with
  | none => (.error "Game not found", db)
  | some game =>
      if i.wager < game.minBet ∨ game.maxBet < i.wager then
        (.error "Wager amount out of bounds", db)
      else
        match WalletService.getWalletBalances db i.userId i.operatorId with
        | none => (.error "Wallet not found", db)
        | some balances =>
            if balances.realBalance ≥ i.wager then
              (.ok (game, balances, BetType.real), db)
            else if balances.bonusBalance ≥ i.wager then
              (.ok (game, balances, BetType.bonus), db)
            else
              (.error "Insufficient funds", db)

/-- The contribution loop of step 4: `contributeToJackpot` per computed
(level, amount), accumulating `jackpotContribution`. -/
def contribLoop (grp : Nat) : List (JackpotLevel × ℚ) → ℚ → BetM ℚ
  | [], acc => fun db => (.ok acc, db)
  | (lvl, amt) :: rest, acc => fun db =>
      match JackpotService.contributeToJackpot db grp lvl amt with
      | .error e => (.error e, db)
      | .ok (_, db1) => contribLoop grp rest (acc + amt) db1

/-- Step 4 of `placeBet`: when the game belongs to a jackpot group, apply the
per-pool contributions; on a pending jackpot win read the *grand*-level pool
value (the level is hardcoded in the source), add any nonzero value to the
win amount (JS truthiness on `if (jackpotAmount)`) and award-and-reset the
pool.  Returns (jackpotContribution, winAmount after jackpot). -/
def phaseJackpot (i : PlaceBetInput) (outcome : Outcome) (game : Game) :
    BetM (ℚ × ℚ) := fun db =>
  match game.jackpotGroup with
  | none => (.ok (0, outcome.winAmount), db)
  | some grp =>
      let contributions := JackpotService.calculateContributions db i.wager grp
      match contribLoop grp contributions 0 db with
      | (.error e, db1) => (.error e, db1)
      | (.ok jc, db1) =>
          if outcome.isJackpotWin then
            match JackpotService.getJackpotValue db1 grp JackpotLevel.grand with
            | none => (.ok (jc, outcome.winAmount), db1)
            | some jackpotAmount =>
                if jackpotAmount == 0 then (.ok (jc, outcome.winAmount), db1)
                else
                  match JackpotService.awardJackpot db1 grp JackpotLevel.grand
                      i.userId i.operatorId i.gameId jackpotAmount with
                  | .error e => (.error e, db1)
                  | .ok db2 => (.ok (jc, outcome.winAmount + jackpotAmount), db2)
          else (.ok (jc, outcome.winAmount), db1)

/-- Step 5 of `placeBet`: debit the wager from the chosen balance, credit the
win to the same balance type when positive, and re-read the balances
("Failed to retrieve updated balances" when the wallet vanished). -/
def phaseBalances (i : PlaceBetInput) (betType : BetType) (winAmount : ℚ) :
    BetM Balances := fun db =>
  match WalletService.debitFromWallet db i.userId i.operatorId i.wager
      (betType == BetType.real) with
  | .error e => (.error e, db)
  | .ok (_, db1) =>
      let afterCredit : Except String DB :=
        if 0 < winAmount then
          match WalletService.creditToWallet db1 i.userId i.operatorId winAmount
              (betType == BetType.real) with
          | .error e => .error e
          | .ok (_, db2) => .ok db2
        else .ok db1
      match afterCredit with
      | .error e => (.error e, db1)
      | .ok db2 =>
          match WalletService.getWalletBalances db2 i.userId i.operatorId with
          | none => (.error "Failed to retrieve updated balances", db2)
          | some b => (.ok b, db2)

/-- Step 8 of `placeBet`: proportional cashback on a net loss. -/
def phaseCashback (i : PlaceBetInput) (winAmount : ℚ) : BetM ℚ := fun db =>
  if winAmount < i.wager then
    match VIPRewardService.applyCashback db i.userId i.operatorId (i.wager - winAmount) with
    | .error e => (.error e, db)
    | .ok (cashbackAmount, db1) => (.ok cashbackAmount, db1)
  else (.ok 0, db)

/-- Step 9 of `placeBet`: dispatch level-up rewards when `awardXP` reported a
level-up. -/
def phaseLevelUp (i : PlaceBetInput) (vipUpdate : VIPService.VipUpdate) :
    BetM Unit := fun db =>
  match vipUpdate.levelUp with
  | none => (.ok (), db)
  | some lu =>
      match VIPRewardService.applyLevelUpRewards db i.userId i.operatorId lu.newLevel with
      | .error e => (.error e, db)
      | .ok (_, db1) => (.ok (), db1)

/-- Step 10 of `placeBet`: when cashback was applied, re-read the balances
(`finalBalances || updatedBalances`). -/
def phaseFinalBalances (i : PlaceBetInput) (cashbackAmount : ℚ)
    (updatedBalances : Balances) : BetM Balances := fun db =>
  if 0 < cashbackAmount then
    match WalletService.getWalletBalances db i.userId i.operatorId with
    | none => (.ok updatedBalances, db)
    | some finalBalances => (.ok finalBalances, db)
  else (.ok updatedBalances, db)

/-- The row `placeBet` inserts into `bet_logs` in step 11. -/
def mkBetLog (i : PlaceBetInput) (betType : BetType)
    (preBalances postBalances : Balances) (winAmount jackpotContribution : ℚ)
    (wageringProgress : Option WageringProgress) : BetLog :=
  { userId := i.userId, operatorId := i.operatorId, gameId := i.gameId,
    wager := i.wager, win := winAmount, betType := betType,
    preRealBalance := preBalances.realBalance,
    postRealBalance := postBalances.realBalance,
    preBonusBalance := preBalances.bonusBalance,
    postBonusBalance := postBalances.bonusBalance,
    jackpotContribution := jackpotContribution,
    vipPointsAdded := i.wager * 1,
    ggrContribution := i.wager - winAmount,
    wageringProgress := wageringProgress }

/-- Step 11 of `placeBet`: insert the immutable bet record (via `tx`). -/
def phaseLog (i : PlaceBetInput) (betType : BetType)
    (preBalances postBalances : Balances) (winAmount jackpotContribution : ℚ)
    (wageringProgress : Option WageringProgress) : BetM Nat := fun db =>
  (.ok db.betLogs.length,
   { db with betLogs := db.betLogs ++
      [mkBetLog i betType preBalances postBalances winAmount jackpotContribution
        wageringProgress] })

/-- The body of the `db.transaction` callback of `BetService.placeBet`,
steps 1–12 in source order.  `outcome` is the Outcome Oracle's reply;
`notifyFails` injects a synchronous throw from
`WebSocketService.broadcastToUser` (the broadcast runs *inside* the callback
and is not guarded by any try/catch of its own). -/
def placeBetCore (i : PlaceBetInput) (outcome : Outcome) (notifyFails : Bool) :
    BetM BetResult := do
  let (game, balances, betType) ← phaseValidate i
  let (jackpotContribution, winAmount) ← phaseJackpot i outcome game
  let updatedBalances ← phaseBalances i betType winAmount
  let wageringProgress ← updateWageringProgress i.userId i.operatorId betType i.wager
  let vipUpdate ← svc fun db => VIPService.awardXP db i.userId i.wager 1
  let cashbackAmount ← phaseCashback i winAmount
  phaseLevelUp i vipUpdate
  let finalBalances ← phaseFinalBalances i cashbackAmount updatedBalances
  let betLogId ← phaseLog i betType balances finalBalances winAmount
    jackpotContribution wageringProgress
  if notifyFails then throwB "Notification delivery failed" else pure ()
  pure { outcome := { outcome with winAmount := winAmount },
         balances := finalBalances,
         vipUpdate := vipUpdate,
         wageringProgress := wageringProgress,
         jackpotContribution := jackpotContribution,
         betLogId := betLogId }

/-- `BetService.placeBet`: zod-validate the input (before the transaction
opens), run the callback, and commit.  When the callback throws, the
transaction rolls back — which reverts exactly the tables written through
`tx` (`betLogs`, `bonusTasks`); the statements the singleton services issued
on the shared `db` connection have already auto-committed and persist. -/
def placeBet (db : DB) (i : PlaceBetInput) (outcome : Outcome) (notifyFails : Bool) :
    Except String BetResult × DB :=
  if ¬(0 < i.wager) then (.error "ValidationError", db)
  else
    match placeBetCore i outcome notifyFails db with
    | (.ok r, db') => (.ok r, db')
    | (.error e, db') =>
        (.error e, { db' with bonusTasks := db.bonusTasks, betLogs := db.betLogs })

end BetService

/-- The balance adjustment `creditToWallet` applies to the wallet row. -/
def creditAdj (amount : ℚ) (isReal : Bool) (b : Balances) : Balances :=
  if isReal then { b with realBalance := b.realBalance + amount }
  else { b with bonusBalance := b.bonusBalance + amount }

/-- The balance adjustment `debitFromWallet` applies to the wallet row. -/
def debitAdj (amount : ℚ) (isReal : Bool) (b : Balances) : Balances :=
  if isReal then { b with realBalance := b.realBalance - amount }
  else { b with bonusBalance := b.bonusBalance - amount }

/-- Every pool value in the store is nonnegative (§3 invariant: pools are
seeded and only ever receive nonnegative contributions). -/
def poolsNonneg (db : DB) : Prop := ∀ p ∈ db.pools, 0 ≤ p.currentValue

/-- The spec's notion of current VIP level (§3): the highest level in the
threshold table whose `minExperience` is at most the experience value.  A
second definition written from the spec's words, for comparison with the
source's `VIPService.getCurrentLevel`. -/
def specCurrentLevel (levels : List VipLevelRow) (xp : ℚ) : Option VipLevelRow :=
  (levels.filter fun l => l.minExperience ≤ xp).foldl
    (fun best l =>
      match best with
      | none => some l
      | some b => if b.level < l.level then some l else b)
    none

/-- The bet-type rule as the spec words it (§4.5 step 3), including the
game-level bonus-play permission the spec asserts: real when the real balance
covers the wager, else bonus when the game permits bonus play and the bonus
balance covers the wager, else reject.  A second definition written from the
spec's words, for comparison with `BetService.phaseValidate` — the source
carries no bonus-permission flag on games at all. -/
def specChooseBetType (allowsBonus : Bool) (realBalance bonusBalance wager : ℚ) :
    Except String BetType :=
  if wager ≤ realBalance then Except.ok BetType.real
  else if allowsBonus = true ∧ wager ≤ bonusBalance then Except.ok BetType.bonus
  else Except.error "Insufficient funds"

/-- The VIP threshold table of the C4 comparison: level 1 from 0 XP,
level 2 from 100 XP. -/
def vipTableC4 : List VipLevelRow :=
  [{ level := 1, name := "Bronze", minExperience := 0, cashbackRate := 0,
     freeSpinsPerMonth := 0 },
   { level := 2, name := "Silver", minExperience := 100, cashbackRate := 0,
     freeSpinsPerMonth := 0 }]

/-- A store holding only that table and one user with 0 experience. -/
def dbC4 : DB :=
  { games := [], wallets := [], pools := [], jackpotWins := [],
    users := [{ id := 1, vipExperience := 0 }], vipLevels := vipTableC4,
    betLogs := [], bonusTasks := [] }

/-- Fixture: a game outside any jackpot group, bets from 1 to 100. -/
def gameA : Game :=
  { id := 1, rtp := 95, jackpotGroup := none, minBet := 1, maxBet := 100 }

/-- Fixture: the same game placed in jackpot group 1. -/
def gameJ : Game :=
  { id := 1, rtp := 95, jackpotGroup := some 1, minBet := 1, maxBet := 100 }

/-- Fixture: user 1 wagers 10 on game 1 at operator 1. -/
def inA : PlaceBetInput := { userId := 1, operatorId := 1, gameId := 1, wager := 10 }

/-- Fixture outcome: a total loss. -/
def outLoss : Outcome :=
  { winAmount := 0, multiplier := 0, isJackpotWin := false, outcomeLabel := "loss" }

/-- Fixture outcome: a push (win equals the wager of `inA`). -/
def outPush : Outcome :=
  { winAmount := 10, multiplier := 1, isJackpotWin := false, outcomeLabel := "win" }

/-- Fixture outcome: a 15-unit win. -/
def outWin15 : Outcome :=
  { winAmount := 15, multiplier := 3/2, isJackpotWin := false, outcomeLabel := "win" }

/-- Fixture outcome: a 50-unit base win flagged as a jackpot win. -/
def outJack : Outcome :=
  { winAmount := 50, multiplier := 5, isJackpotWin := true, outcomeLabel := "jackpot" }

/-- Fixture: the grand pool of group 1 at value 1000, seed 100, rate 1%. -/
def poolG : JackpotPool :=
  { group := 1, level := JackpotLevel.grand, currentValue := 1000, seedValue := 100,
    contributionRate := 1/100, isActive := true }

/-- Fixture: the empty store. -/
def emptyDB : DB :=
  { games := [], wallets := [], pools := [], jackpotWins := [], users := [],
    vipLevels := [], bonusTasks := [], betLogs := [] }

/-- Fixture: a funded wallet whose user row is missing from `users`, so the
XP-award step of the settlement throws after the wager was already debited. -/
def dbMissingUser : DB :=
  { emptyDB with
      games := [gameA],
      wallets := [{ userId := 1, operatorId := 1, realBalance := 100,
                    bonusBalance := 50 }] }

/-- Fixture: user at 150 XP on a single-level VIP table with 10% cashback, so
a losing bet triggers the cashback credit. -/
def dbCashback : DB :=
  { emptyDB with
      games := [gameA],
      wallets := [{ userId := 1, operatorId := 1, realBalance := 100,
                    bonusBalance := 50 }],
      users := [{ id := 1, vipExperience := 150 }],
      vipLevels := [{ level := 1, name := "Bronze", minExperience := 0,
                      cashbackRate := 10, freeSpinsPerMonth := 0 }] }

/-- Fixture: a wallet holding bonus funds only (real balance 0). -/
def dbBonusOnly : DB :=
  { emptyDB with
      games := [gameA],
      wallets := [{ userId := 1, operatorId := 1, realBalance := 0,
                    bonusBalance := 50 }],
      users := [{ id := 1, vipExperience := 0 }] }

/-- Fixture: a wallet too short on both balances for the 10-unit wager. -/
def dbShortBoth : DB :=
  { emptyDB with
      games := [gameA],
      wallets := [{ userId := 1, operatorId := 1, realBalance := 0,
                    bonusBalance := 5 }],
      users := [{ id := 1, vipExperience := 0 }] }

/-- Fixture: a jackpot-group game over the grand pool `poolG`. -/
def dbJack : DB :=
  { emptyDB with
      games := [gameJ],
      wallets := [{ userId := 1, operatorId := 1, realBalance := 1000,
                    bonusBalance := 0 }],
      pools := [poolG],
      users := [{ id := 1, vipExperience := 0 }] }

/-- Fixture: an active bonus task whose holder has already wagered more than
the awarded amount (150 of 200 required, 100 awarded). -/
def taskNeg : BonusTask :=
  { id := 1, userId := 1, operatorId := 1, taskType := "deposit_bonus",
    awardedAmount := 100, wageringRequired := 200, wagered := 150,
    isCompleted := false, createdAt := 5 }

/-- Fixture: a store holding `taskNeg` and a funded wallet. -/
def dbWagering : DB :=
  { emptyDB with
      wallets := [{ userId := 1, operatorId := 1, realBalance := 10,
                    bonusBalance := 60 }],
      bonusTasks := [taskNeg] }

/-- Fixture: an active bonus task close to completion with a positive
remainder (50 of 60 required wagered, 100 awarded). -/
def taskPos : BonusTask :=
  { id := 1, userId := 1, operatorId := 1, taskType := "deposit_bonus",
    awardedAmount := 100, wageringRequired := 60, wagered := 50,
    isCompleted := false, createdAt := 5 }

/-- Fixture: a store holding `taskPos` and a funded wallet. -/
def dbConvert : DB :=
  { emptyDB with
      wallets := [{ userId := 1, operatorId := 1, realBalance := 10,
                    bonusBalance := 60 }],
      bonusTasks := [taskPos] }

/-- Fixture: a store holding one funded wallet and nothing else. -/
def dbWallet9 : DB :=
  { emptyDB with
      wallets := [{ userId := 1, operatorId := 1, realBalance := 100,
                    bonusBalance := 50 }] }

/-- The settlement result of wagering 10 from `dbCashback` on outcome
`outWin15`: debit 10, credit 15, no cashback (the win covers the wager), XP
150 → 160 with no threshold reached. -/
def resW : BetResult :=
  { outcome := outWin15,
    balances := { realBalance := 105, bonusBalance := 50 },
    vipUpdate := { newXP := 160, levelUp := none },
    wageringProgress := none,
    jackpotContribution := 0,
    betLogId := 0 }

/-- The settlement result of wagering 10 from `dbJack` on outcome `outJack`:
the grand pool receives the 0.1 contribution first, then pays out 1000.1 on
top of the 50 base win; the wallet ends at 1000 − 10 + 1050.1. -/
def resJ : BetResult :=
  { outcome := { outJack with winAmount := 10501/10 },
    balances := { realBalance := 20401/10, bonusBalance := 0 },
    vipUpdate := { newXP := 10, levelUp := none },
    wageringProgress := none,
    jackpotContribution := 1/10,
    betLogId := 0 }

namespace BetM

theorem bind_eq_bindB {α β : Type} (x : BetM α) (f : α → BetM β) :
    x >>= f = bindB x f := rfl

theorem pure_eq_pureB {α : Type} (a : α) : (pure a : BetM α) = pureB a := rfl

/-- Invert a successful bind: both halves succeeded in sequence. -/
theorem bindB_ok {α β : Type} {x : BetM α} {f : α → BetM β} {db db2 : DB} {b : β}
    (h : bindB x f db = (.ok b, db2)) :
    ∃ a db1, x db = (.ok a, db1) ∧ f a db1 = (.ok b, db2) := by
  unfold bindB at h
  rcases hx : x db with ⟨r, db1⟩
  rw [hx] at h
  cases r with
  | ok a => exact ⟨a, db1, rfl, h⟩
  | error e => simp at h

/-- Invert a failing bind: either the first half failed there, or it
succeeded and the continuation failed. -/
theorem bindB_err {α β : Type} {x : BetM α} {f : α → BetM β} {db db2 : DB} {e : String}
    (h : bindB x f db = (.error e, db2)) :
    x db = (.error e, db2) ∨ ∃ a db1, x db = (.ok a, db1) ∧ f a db1 = (.error e, db2) := by
  unfold bindB at h
  rcases hx : x db with ⟨r, db1⟩
  rw [hx] at h
  cases r with
  | ok a => exact .inr ⟨a, db1, rfl, h⟩
  | error e' =>
      left
      cases h
      rfl

theorem pureB_ok {α : Type} {a b : α} {db db' : DB}
    (h : pureB a db = (.ok b, db')) : a = b ∧ db = db' := by
  cases h; exact ⟨rfl, rfl⟩

end BetM

/-- `find?` commutes with a map that does not change the predicate's value. -/
theorem find?_map_congr {α : Type} {l : List α} {q : α → Bool} {g : α → α}
    (hg : ∀ a, q (g a) = q a) :
    (l.map g).find? q = (l.find? q).map g := by
  induction l with
  | nil => rfl
  | cons a t ih =>
      by_cases ha : q a = true
      · simp [List.find?_cons, hg a, ha]
      · simp only [Bool.not_eq_true] at ha
        simp [List.find?_cons, hg a, ha, ih]

/-- Membership survives `find?`. -/
theorem mem_of_find? {α : Type} {l : List α} {q : α → Bool} {a : α}
    (h : l.find? q = some a) : a ∈ l ∧ q a = true :=
  ⟨List.mem_of_find?_eq_some h, List.find?_some h⟩

theorem BetService.phaseValidate_ok {i : PlaceBetInput} {db db1 : DB} {g : Game}
    {w : Balances} {bt : BetType}
    (h : BetService.phaseValidate i db = (.ok (g, w, bt), db1)) :
    db1 = db ∧ db.games.find? (fun x => x.id == i.gameId) = some g ∧
    ¬(i.wager < g.minBet ∨ g.maxBet < i.wager) ∧
    WalletService.getWalletBalances db i.userId i.operatorId = some w ∧
    ((bt = BetType.real ∧ i.wager ≤ w.realBalance) ∨
     (bt = BetType.bonus ∧ w.realBalance < i.wager ∧ i.wager ≤ w.bonusBalance)) := by
  unfold BetService.phaseValidate at h
  split at h
  · simp_all
  · rename_i game hfind
    split at h
    · simp_all
    · rename_i hbounds
      split at h
      · simp_all
      · rename_i bal hbal
        split at h
        · rename_i hreal
          cases h
          exact ⟨rfl, hfind, hbounds, hbal, .inl ⟨rfl, hreal⟩⟩
        · split at h
          · rename_i hreal hbonus
            cases h
            exact ⟨rfl, hfind, hbounds, hbal, .inr ⟨rfl, lt_of_not_ge hreal, hbonus⟩⟩
          · simp_all

open BetService in
/-- Invert a successful settlement callback into its eleven sequential steps. -/
theorem placeBetCore_ok_chain {i : PlaceBetInput} {out : Outcome} {nf : Bool}
    {r : BetResult} {db db' : DB}
    (h : BetService.placeBetCore i out nf db = (.ok r, db')) :
    ∃ g w bt db1 jc win db2 ub db3 wp db4 vu db5 cb db6 db7 fb db8 lid,
      phaseValidate i db = (.ok (g, w, bt), db1) ∧
      phaseJackpot i out g db1 = (.ok (jc, win), db2) ∧
      phaseBalances i bt win db2 = (.ok ub, db3) ∧
      updateWageringProgress i.userId i.operatorId bt i.wager db3 = (.ok wp, db4) ∧
      VIPService.awardXP db4 i.userId i.wager 1 = .ok (vu, db5) ∧
      phaseCashback i win db5 = (.ok cb, db6) ∧
      phaseLevelUp i vu db6 = (.ok (), db7) ∧
      phaseFinalBalances i cb ub db7 = (.ok fb, db8) ∧
      phaseLog i bt w fb win jc wp db8 = (.ok lid, db') ∧
      nf = false ∧
      r = { outcome := { out with winAmount := win }, balances := fb, vipUpdate := vu,
            wageringProgress := wp, jackpotContribution := jc, betLogId := lid } := by
  unfold BetService.placeBetCore at h
  simp only [BetM.bind_eq_bindB] at h
  obtain ⟨gwb, db1, h1, h⟩ := BetM.bindB_ok h
  obtain ⟨g, w, bt⟩ := gwb
  obtain ⟨jw, db2, h2, h⟩ := BetM.bindB_ok h
  obtain ⟨jc, win⟩ := jw
  obtain ⟨ub, db3, h3, h⟩ := BetM.bindB_ok h
  obtain ⟨wp, db4, h4, h⟩ := BetM.bindB_ok h
  obtain ⟨vu, db5, h5, h⟩ := BetM.bindB_ok h
  obtain ⟨cb, db6, h6, h⟩ := BetM.bindB_ok h
  obtain ⟨u7, db7, h7, h⟩ := BetM.bindB_ok h
  obtain ⟨fb, db8, h8, h⟩ := BetM.bindB_ok h
  obtain ⟨lid, db9, h9, h⟩ := BetM.bindB_ok h
  cases u7
  have h5' : VIPService.awardXP db4 i.userId i.wager 1 = .ok (vu, db5) := by
    simp only [BetM.svc] at h5
    rcases hx : VIPService.awardXP db4 i.userId i.wager 1 with e | p
    · rw [hx] at h5; simp at h5
    · rw [hx] at h5
      obtain ⟨a, b⟩ := p
      simp only [Prod.mk.injEq, Except.ok.injEq] at h5
      obtain ⟨rfl, rfl⟩ := h5
      rfl
  cases nf with
  | true =>
      exfalso
      simp [BetM.bindB, BetM.throwB] at h
  | false =>
      simp only [Bool.false_eq_true, if_false, BetM.bindB, BetM.pure_eq_pureB,
        BetM.pureB, Prod.mk.injEq, Except.ok.injEq] at h
      obtain ⟨hr, hdb⟩ := h
      subst hdb
      refine ⟨g, w, bt, db1, jc, win, db2, ub, db3, wp, db4, vu, db5, cb, db6, db7, fb, db8,
        lid, h1, h2, h3, h4, h5', h6, h7, h8, h9, rfl, ?_⟩
      exact hr.symm

/-- The wallet `UPDATE` rewrites only balance columns, so the keyed `find?`
commutes with it. -/
theorem WalletService.find?_wallets_update {l : List WalletRow} {u o : Nat}
    (adj : WalletRow → WalletRow)
    (hadj : ∀ r, (adj r).userId = r.userId ∧ (adj r).operatorId = r.operatorId) :
    ((l.map fun r => if r.userId == u && r.operatorId == o then adj r else r).find?
        fun r => r.userId == u && r.operatorId == o)
      = (l.find? fun r => r.userId == u && r.operatorId == o).map
          fun r => if r.userId == u && r.operatorId == o then adj r else r := by
  apply find?_map_congr
  intro a
  by_cases hk : (a.userId == u && a.operatorId == o) = true
  · simp [hk, (hadj a).1, (hadj a).2]
  · simp only [Bool.not_eq_true] at hk
    simp [hk]

theorem WalletService.creditToWallet_ok {db db' : DB} {u o : Nat} {amount : ℚ}
    {isReal : Bool} {b : Balances}
    (h : WalletService.creditToWallet db u o amount isReal = .ok (b, db')) :
    0 < amount ∧
    db'.games = db.games ∧ db'.pools = db.pools ∧ db'.jackpotWins = db.jackpotWins ∧
    db'.users = db.users ∧ db'.vipLevels = db.vipLevels ∧
    db'.bonusTasks = db.bonusTasks ∧ db'.betLogs = db.betLogs ∧
    ∃ w, WalletService.getWalletBalances db u o = some w ∧
      b = creditAdj amount isReal w ∧
      WalletService.getWalletBalances db' u o = some b := by
  unfold WalletService.creditToWallet at h
  split at h
  · simp at h
  · rename_i hpos
    dsimp only [] at h
    rw [WalletService.find?_wallets_update
      (fun r => if isReal then { r with realBalance := r.realBalance + amount }
        else { r with bonusBalance := r.bonusBalance + amount })
      (by intro r; by_cases hr : isReal <;> simp [hr])] at h
    rcases hf : db.wallets.find? fun r => r.userId == u && r.operatorId == o with _ | w0
    · rw [hf] at h; simp at h
    · rw [hf] at h
      simp only [Option.map_some'] at h
      have hkey : (w0.userId == u && w0.operatorId == o) = true := (mem_of_find? hf).2
      rw [if_pos hkey] at h
      cases h
      refine ⟨lt_of_not_ge (fun hle => hpos (by simpa using hle)), rfl, rfl, rfl, rfl, rfl, rfl, rfl, ?_⟩
      refine ⟨{ realBalance := w0.realBalance, bonusBalance := w0.bonusBalance }, ?_, ?_, ?_⟩
      · unfold WalletService.getWalletBalances
        rw [hf]; rfl
      · by_cases hr : isReal <;> simp [creditAdj, hr]
      · unfold WalletService.getWalletBalances
        simp only []
        rw [WalletService.find?_wallets_update
          (fun r => if isReal then { r with realBalance := r.realBalance + amount }
            else { r with bonusBalance := r.bonusBalance + amount })
          (by intro r; by_cases hr : isReal <;> simp [hr])]
        rw [hf]
        simp only [Option.map_some', if_pos hkey]

theorem WalletService.debitFromWallet_ok {db db' : DB} {u o : Nat} {amount : ℚ}
    {isReal : Bool} {b : Balances}
    (h : WalletService.debitFromWallet db u o amount isReal = .ok (b, db')) :
    0 < amount ∧
    db'.games = db.games ∧ db'.pools = db.pools ∧ db'.jackpotWins = db.jackpotWins ∧
    db'.users = db.users ∧ db'.vipLevels = db.vipLevels ∧
    db'.bonusTasks = db.bonusTasks ∧ db'.betLogs = db.betLogs ∧
    ∃ w, WalletService.getWalletBalances db u o = some w ∧
      amount ≤ (if isReal then w.realBalance else w.bonusBalance) ∧
      b = debitAdj amount isReal w ∧
      WalletService.getWalletBalances db' u o = some b := by
  cases isReal with
  | true =>
      unfold WalletService.debitFromWallet at h
      split at h
      · simp at h
      · rename_i hpos
        split at h
        · simp at h
        · rename_i balances hbal
          obtain ⟨w0, hf, hw0⟩ := Option.map_eq_some'.mp hbal
          have hkey : (w0.userId == u && w0.operatorId == o) = true := (mem_of_find? hf).2
          dsimp only [] at h
          simp only [reduceIte] at h
          split at h
          · simp at h
          · rename_i hsuff
            rw [WalletService.find?_wallets_update
              (fun r => { r with realBalance := r.realBalance - amount })
              (by intro r; simp)] at h
            rw [hf] at h
            simp only [Option.map_some', if_pos hkey] at h
            cases h
            refine ⟨lt_of_not_ge (fun hle => hpos (by simpa using hle)),
              rfl, rfl, rfl, rfl, rfl, rfl, rfl, balances, hbal, ?_, ?_, ?_⟩
            · subst hw0; simpa using le_of_not_gt hsuff
            · subst hw0; simp [debitAdj]
            · unfold WalletService.getWalletBalances
              simp only []
              rw [WalletService.find?_wallets_update
                (fun r => { r with realBalance := r.realBalance - amount })
                (by intro r; simp)]
              rw [hf]
              simp only [Option.map_some', if_pos hkey]
  | false =>
      unfold WalletService.debitFromWallet at h
      split at h
      · simp at h
      · rename_i hpos
        split at h
        · simp at h
        · rename_i balances hbal
          obtain ⟨w0, hf, hw0⟩ := Option.map_eq_some'.mp hbal
          have hkey : (w0.userId == u && w0.operatorId == o) = true := (mem_of_find? hf).2
          dsimp only [] at h
          simp only [Bool.false_eq_true, if_false] at h
          split at h
          · simp at h
          · rename_i hsuff
            rw [WalletService.find?_wallets_update
              (fun r => { r with bonusBalance := r.bonusBalance - amount })
              (by intro r; simp)] at h
            rw [hf] at h
            simp only [Option.map_some', if_pos hkey] at h
            cases h
            refine ⟨lt_of_not_ge (fun hle => hpos (by simpa using hle)),
              rfl, rfl, rfl, rfl, rfl, rfl, rfl, balances, hbal, ?_, ?_, ?_⟩
            · subst hw0; simpa using le_of_not_gt hsuff
            · subst hw0; simp [debitAdj]
            · unfold WalletService.getWalletBalances
              simp only []
              rw [WalletService.find?_wallets_update
                (fun r => { r with bonusBalance := r.bonusBalance - amount })
                (by intro r; simp)]
              rw [hf]
              simp only [Option.map_some', if_pos hkey]

theorem JackpotService.contributeToJackpot_ok {db db' : DB} {grp : Nat}
    {lvl : JackpotLevel} {amt nv : ℚ}
    (h : JackpotService.contributeToJackpot db grp lvl amt = .ok (nv, db')) :
    0 ≤ amt ∧
    db'.games = db.games ∧ db'.wallets = db.wallets ∧
    db'.jackpotWins = db.jackpotWins ∧ db'.users = db.users ∧
    db'.vipLevels = db.vipLevels ∧ db'.bonusTasks = db.bonusTasks ∧
    db'.betLogs = db.betLogs ∧
    db'.pools = db.pools.map (fun p =>
      if p.group == grp && p.level == lvl then
        { p with currentValue := p.currentValue + amt }
      else p) ∧
    ∃ p0, db.pools.find? (fun p => p.group == grp && p.level == lvl) = some p0 ∧
      nv = p0.currentValue + amt := by
  unfold JackpotService.contributeToJackpot at h
  split at h
  · simp at h
  · rename_i hneg
    dsimp only [] at h
    rw [find?_map_congr (q := fun p => p.group == grp && p.level == lvl)
      (g := fun (p : JackpotPool) =>
        if (p.group == grp && p.level == lvl) = true then
          { p with currentValue := p.currentValue + amt }
        else p)
      (by
        intro a
        by_cases hk : (a.group == grp && a.level == lvl) = true
        · simp [hk]
        · simp only [Bool.not_eq_true] at hk
          simp [hk])] at h
    rcases hf : db.pools.find? fun p => p.group == grp && p.level == lvl with _ | p0
    · rw [hf] at h; simp at h
    · rw [hf] at h
      simp only [Option.map_some'] at h
      have hkey : (p0.group == grp && p0.level == lvl) = true := (mem_of_find? hf).2
      rw [if_pos hkey] at h
      cases h
      exact ⟨le_of_not_gt hneg, rfl, rfl, rfl, rfl, rfl, rfl, rfl, rfl, p0, hf, rfl⟩

theorem BetService.contribLoop_ok {grp : Nat} {L : List (JackpotLevel × ℚ)}
    {acc jc : ℚ} {db db' : DB}
    (h : BetService.contribLoop grp L acc db = (.ok jc, db')) :
    db'.games = db.games ∧ db'.wallets = db.wallets ∧
    db'.jackpotWins = db.jackpotWins ∧ db'.users = db.users ∧
    db'.vipLevels = db.vipLevels ∧ db'.bonusTasks = db.bonusTasks ∧
    db'.betLogs = db.betLogs ∧
    (poolsNonneg db → poolsNonneg db') := by
  induction L generalizing acc db with
  | nil =>
      cases h
      exact ⟨rfl, rfl, rfl, rfl, rfl, rfl, rfl, fun hp => hp⟩
  | cons hd tl ih =>
      obtain ⟨lvl, amt⟩ := hd
      unfold BetService.contribLoop at h
      rcases hc : JackpotService.contributeToJackpot db grp lvl amt with e | p
      · rw [hc] at h; simp at h
      · rw [hc] at h
        obtain ⟨nv, db1⟩ := p
        obtain ⟨hamt, hg, hw, hj, hu, hv, hb, hl, hpools, -⟩ :=
          JackpotService.contributeToJackpot_ok hc
        obtain ⟨ihg, ihw, ihj, ihu, ihv, ihb, ihl, ihnn⟩ := ih h
        refine ⟨ihg.trans hg, ihw.trans hw, ihj.trans hj, ihu.trans hu,
          ihv.trans hv, ihb.trans hb, ihl.trans hl, fun hp => ihnn ?_⟩
        intro p hp1
        rw [hpools] at hp1
        obtain ⟨q, hq, hqe⟩ := List.mem_map.mp hp1
        subst hqe
        by_cases hk : (q.group == grp && q.level == lvl) = true
        · simp only [hk, if_true]
          have := hp q hq
          have hnn : (0:ℚ) ≤ amt := hamt
          show 0 ≤ q.currentValue + amt
          linarith
        · simp only [Bool.not_eq_true] at hk
          simp only [hk, Bool.false_eq_true, if_false]
          exact hp q hq

theorem JackpotService.awardJackpot_ok {db db' : DB} {grp : Nat}
    {lvl : JackpotLevel} {u o gid : Nat} {amt : ℚ}
    (h : JackpotService.awardJackpot db grp lvl u o gid amt = .ok db') :
    0 < amt ∧
    db'.games = db.games ∧ db'.wallets = db.wallets ∧ db'.users = db.users ∧
    db'.vipLevels = db.vipLevels ∧ db'.bonusTasks = db.bonusTasks ∧
    db'.betLogs = db.betLogs ∧
    db'.jackpotWins = db.jackpotWins ++
      [{ group := grp, level := lvl, userId := u, operatorId := o,
         gameId := gid, amount := amt }] ∧
    ((db.pools.find? (fun p => p.group == grp && p.level == lvl) = none ∧
        db'.pools = db.pools) ∨
     (∃ p0, db.pools.find? (fun p => p.group == grp && p.level == lvl) = some p0 ∧
        db'.pools = db.pools.map (fun p =>
          if p.group == grp && p.level == lvl then
            { p with currentValue := toFixed2 p0.seedValue }
          else p))) := by
  unfold JackpotService.awardJackpot at h
  split at h
  · simp at h
  · rename_i hpos
    dsimp only [] at h
    split at h
    · rename_i hf
      cases h
      exact ⟨lt_of_not_ge (fun hle => hpos (by simpa using hle)),
        rfl, rfl, rfl, rfl, rfl, rfl, rfl, .inl ⟨hf, rfl⟩⟩
    · rename_i p0 hf
      cases h
      exact ⟨lt_of_not_ge (fun hle => hpos (by simpa using hle)),
        rfl, rfl, rfl, rfl, rfl, rfl, rfl, .inr ⟨p0, hf, rfl⟩⟩

theorem VIPService.awardXP_ok {db db' : DB} {u : Nat} {xpAmount mult : ℚ}
    {vu : VIPService.VipUpdate}
    (h : VIPService.awardXP db u xpAmount mult = .ok (vu, db')) :
    db'.games = db.games ∧ db'.wallets = db.wallets ∧ db'.pools = db.pools ∧
    db'.jackpotWins = db.jackpotWins ∧ db'.vipLevels = db.vipLevels ∧
    db'.bonusTasks = db.bonusTasks ∧ db'.betLogs = db.betLogs := by
  unfold VIPService.awardXP at h
  split at h
  · simp at h
  · split at h
    · simp at h
    · rename_i user hfind
      cases h
      exact ⟨rfl, rfl, rfl, rfl, rfl, rfl, rfl⟩

theorem VIPRewardService.applyCashback_ok {db db' : DB} {u o : Nat}
    {lossAmount cb : ℚ}
    (h : VIPRewardService.applyCashback db u o lossAmount = .ok (cb, db')) :
    db'.games = db.games ∧ db'.pools = db.pools ∧
    db'.jackpotWins = db.jackpotWins ∧ db'.users = db.users ∧
    db'.vipLevels = db.vipLevels ∧ db'.bonusTasks = db.bonusTasks ∧
    db'.betLogs = db.betLogs := by
  unfold VIPRewardService.applyCashback at h
  split at h
  · simp at h
  · split at h
    · simp at h
    · rename_i user hfind
      split at h
      · cases h; exact ⟨rfl, rfl, rfl, rfl, rfl, rfl, rfl⟩
      · rename_i vipLevel hlvl
        split at h
        · cases h; exact ⟨rfl, rfl, rfl, rfl, rfl, rfl, rfl⟩
        · dsimp only [] at h
          split at h
          · split at h
            · simp at h
            · rename_i p hc
              obtain ⟨b, db1⟩ := p
              obtain ⟨-, hg, hp, hj, hu, hv, hb, hl, -⟩ :=
                WalletService.creditToWallet_ok hc
              cases h
              exact ⟨hg, hp, hj, hu, hv, hb, hl⟩
          · cases h; exact ⟨rfl, rfl, rfl, rfl, rfl, rfl, rfl⟩

theorem VIPRewardService.applyLevelUpRewards_ok {db db' : DB} {u o : Nat}
    {newLevel : ℚ} {res : ℚ × ℚ}
    (h : VIPRewardService.applyLevelUpRewards db u o newLevel = .ok (res, db')) :
    db'.games = db.games ∧ db'.pools = db.pools ∧
    db'.jackpotWins = db.jackpotWins ∧ db'.users = db.users ∧
    db'.vipLevels = db.vipLevels ∧ db'.bonusTasks = db.bonusTasks ∧
    db'.betLogs = db.betLogs := by
  unfold VIPRewardService.applyLevelUpRewards at h
  split at h
  · simp at h
  · split at h
    · simp at h
    · rename_i vipLevel hlvl
      split at h
      · split at h
        · simp at h
        · rename_i p hc
          obtain ⟨b, db1⟩ := p
          obtain ⟨-, hg, hp, hj, hu, hv, hb, hl, -⟩ :=
            WalletService.creditToWallet_ok hc
          cases h
          exact ⟨hg, hp, hj, hu, hv, hb, hl⟩
      · cases h; exact ⟨rfl, rfl, rfl, rfl, rfl, rfl, rfl⟩

theorem updateWageringProgress_ok_tables {u o : Nat} {bt : BetType}
    {amt : ℚ} {wp : Option WageringProgress} {db db' : DB}
    (h : updateWageringProgress u o bt amt db = (.ok wp, db')) :
    db'.games = db.games ∧ db'.pools = db.pools ∧
    db'.jackpotWins = db.jackpotWins ∧ db'.users = db.users ∧
    db'.vipLevels = db.vipLevels ∧ db'.betLogs = db.betLogs := by
  unfold updateWageringProgress at h
  split at h
  · split at h
    · cases h; exact ⟨rfl, rfl, rfl, rfl, rfl, rfl⟩
    · rename_i task hlatest
      dsimp only [] at h
      split at h
      · split at h
        · split at h
          · simp at h
          · rename_i p hc
            obtain ⟨b, db1⟩ := p
            obtain ⟨-, hg, hp, hj, hu, hv, hb, hl, -⟩ :=
              WalletService.creditToWallet_ok hc
            cases h
            exact ⟨hg, hp, hj, hu, hv, hl⟩
        · cases h; exact ⟨rfl, rfl, rfl, rfl, rfl, rfl⟩
      · cases h; exact ⟨rfl, rfl, rfl, rfl, rfl, rfl⟩
  · cases h; exact ⟨rfl, rfl, rfl, rfl, rfl, rfl⟩

theorem JackpotService.getJackpotValue_nonneg {db : DB} {grp : Nat}
    {lvl : JackpotLevel} {v : ℚ}
    (hnn : poolsNonneg db) (h : JackpotService.getJackpotValue db grp lvl = some v) :
    0 ≤ v := by
  unfold JackpotService.getJackpotValue at h
  obtain ⟨p, hf, hp⟩ := Option.map_eq_some'.mp h
  subst hp
  exact hnn p (mem_of_find? hf).1

theorem BetService.phaseJackpot_ok {i : PlaceBetInput} {out : Outcome} {g : Game}
    {jc win : ℚ} {db db' : DB}
    (h : BetService.phaseJackpot i out g db = (.ok (jc, win), db')) :
    db'.games = db.games ∧ db'.wallets = db.wallets ∧ db'.users = db.users ∧
    db'.vipLevels = db.vipLevels ∧ db'.bonusTasks = db.bonusTasks ∧
    db'.betLogs = db.betLogs ∧
    (poolsNonneg db → out.winAmount ≤ win) := by
  unfold BetService.phaseJackpot at h
  split at h
  · cases h
    exact ⟨rfl, rfl, rfl, rfl, rfl, rfl, fun _ => le_refl _⟩
  · rename_i grp hgrp
    dsimp only [] at h
    split at h
    · simp at h
    · rename_i jc1 db1 hloop
      obtain ⟨lg, lw, lj, lu, lv, lb, ll, lnn⟩ := BetService.contribLoop_ok hloop
      split at h
      · split at h
        · cases h
          exact ⟨lg, lw, lu, lv, lb, ll, fun _ => le_refl _⟩
        · rename_i v hv
          split at h
          · cases h
            exact ⟨lg, lw, lu, lv, lb, ll, fun _ => le_refl _⟩
          · rename_i hvne
            split at h
            · simp at h
            · rename_i db2 haward
              obtain ⟨hpos, ag, aw, au, av, ab, al, -, -⟩ :=
                JackpotService.awardJackpot_ok haward
              cases h
              refine ⟨ag.trans lg, aw.trans lw, au.trans lu, av.trans lv,
                ab.trans lb, al.trans ll, fun hnn => ?_⟩
              have h0 : 0 ≤ v := JackpotService.getJackpotValue_nonneg (lnn hnn) hv
              linarith
      · cases h
        exact ⟨lg, lw, lu, lv, lb, ll, fun _ => le_refl _⟩

theorem BetService.phaseBalances_ok {i : PlaceBetInput} {bt : BetType} {win : ℚ}
    {ub : Balances} {db db' : DB} {w : Balances}
    (hw : WalletService.getWalletBalances db i.userId i.operatorId = some w)
    (hwin : 0 < win)
    (h : BetService.phaseBalances i bt win db = (.ok ub, db')) :
    db'.games = db.games ∧ db'.pools = db.pools ∧ db'.jackpotWins = db.jackpotWins ∧
    db'.users = db.users ∧ db'.vipLevels = db.vipLevels ∧
    db'.bonusTasks = db.bonusTasks ∧ db'.betLogs = db.betLogs ∧
    i.wager ≤ (if bt == BetType.real then w.realBalance else w.bonusBalance) ∧
    ub = creditAdj win (bt == BetType.real) (debitAdj i.wager (bt == BetType.real) w) ∧
    WalletService.getWalletBalances db' i.userId i.operatorId = some ub := by
  unfold BetService.phaseBalances at h
  split at h
  · simp at h
  · rename_i p hdeb
    obtain ⟨b1, db1⟩ := p
    obtain ⟨-, dg, dp, dj, du, dv, db_, dl, w0, hw0, hsuff, hb1, hgb1⟩ :=
      WalletService.debitFromWallet_ok hdeb
    rw [hw] at hw0
    cases hw0
    dsimp only [] at h
    rw [if_pos hwin] at h
    split at h
    · simp at h
    · rename_i db2 hcred
      split at hcred
      · simp at hcred
      · rename_i p hcred2
        obtain ⟨b2, db2x⟩ := p
        cases hcred
        obtain ⟨-, cg, cp, cj, cu, cv, cb_, cl, w1, hw1, hb2, hgb2⟩ :=
          WalletService.creditToWallet_ok hcred2
        rw [hgb1] at hw1
        cases hw1
        rw [hgb2] at h
        cases h
        exact ⟨cg.trans dg, cp.trans dp, cj.trans dj, cu.trans du, cv.trans dv,
          cb_.trans db_, cl.trans dl, hsuff, by rw [hb2, hb1], hgb2⟩

theorem BetService.phaseCashback_ok {i : PlaceBetInput} {win cb : ℚ} {db db' : DB}
    (h : BetService.phaseCashback i win db = (.ok cb, db')) :
    db'.games = db.games ∧ db'.pools = db.pools ∧
    db'.jackpotWins = db.jackpotWins ∧ db'.users = db.users ∧
    db'.vipLevels = db.vipLevels ∧ db'.bonusTasks = db.bonusTasks ∧
    db'.betLogs = db.betLogs := by
  unfold BetService.phaseCashback at h
  split at h
  · split at h
    · simp at h
    · rename_i p hc
      obtain ⟨cb1, db1⟩ := p
      obtain ⟨hg, hp, hj, hu, hv, hb, hl⟩ := VIPRewardService.applyCashback_ok hc
      cases h
      exact ⟨hg, hp, hj, hu, hv, hb, hl⟩
  · cases h
    exact ⟨rfl, rfl, rfl, rfl, rfl, rfl, rfl⟩

theorem BetService.phaseCashback_no_loss {i : PlaceBetInput} {win : ℚ} {db : DB}
    (hn : ¬(win < i.wager)) :
    BetService.phaseCashback i win db = (.ok 0, db) := by
  unfold BetService.phaseCashback
  rw [if_neg hn]

theorem BetService.phaseLevelUp_ok {i : PlaceBetInput} {vu : VIPService.VipUpdate}
    {db db' : DB}
    (h : BetService.phaseLevelUp i vu db = (.ok (), db')) :
    db'.games = db.games ∧ db'.pools = db.pools ∧
    db'.jackpotWins = db.jackpotWins ∧ db'.users = db.users ∧
    db'.vipLevels = db.vipLevels ∧ db'.bonusTasks = db.bonusTasks ∧
    db'.betLogs = db.betLogs := by
  unfold BetService.phaseLevelUp at h
  split at h
  · cases h
    exact ⟨rfl, rfl, rfl, rfl, rfl, rfl, rfl⟩
  · split at h
    · simp at h
    · rename_i p hc
      obtain ⟨res, db1⟩ := p
      obtain ⟨hg, hp, hj, hu, hv, hb, hl⟩ := VIPRewardService.applyLevelUpRewards_ok hc
      cases h
      exact ⟨hg, hp, hj, hu, hv, hb, hl⟩

theorem BetService.phaseFinalBalances_ok {i : PlaceBetInput} {cb : ℚ}
    {ub fb : Balances} {db db' : DB}
    (h : BetService.phaseFinalBalances i cb ub db = (.ok fb, db')) :
    db' = db ∧ (¬(0 < cb) → fb = ub) := by
  unfold BetService.phaseFinalBalances at h
  split at h
  · rename_i hcb
    split at h
    · cases h; exact ⟨rfl, fun hn => absurd hcb hn⟩
    · cases h; exact ⟨rfl, fun hn => absurd hcb hn⟩
  · cases h; exact ⟨rfl, fun _ => rfl⟩

theorem BetService.phaseLog_ok {i : PlaceBetInput} {bt : BetType}
    {pre post : Balances} {win jc : ℚ} {wp : Option WageringProgress}
    {lid : Nat} {db db' : DB}
    (h : BetService.phaseLog i bt pre post win jc wp db = (.ok lid, db')) :
    lid = db.betLogs.length ∧
    db' = { db with betLogs := db.betLogs ++
      [BetService.mkBetLog i bt pre post win jc wp] } := by
  cases h
  exact ⟨rfl, rfl⟩

theorem WalletService.getWalletBalances_congr {a b : DB} {u o : Nat}
    (h : a.wallets = b.wallets) :
    WalletService.getWalletBalances a u o = WalletService.getWalletBalances b u o := by
  unfold WalletService.getWalletBalances
  rw [h]

theorem BetService.placeBet_ok {db db' : DB} {i : PlaceBetInput} {out : Outcome}
    {nf : Bool} {r : BetResult}
    (h : BetService.placeBet db i out nf = (.ok r, db')) :
    0 < i.wager ∧ BetService.placeBetCore i out nf db = (.ok r, db') := by
  unfold BetService.placeBet at h
  split at h
  · simp at h
  · rename_i hpos
    split at h
    · rename_i r0 db0 hcore
      cases h
      exact ⟨lt_of_not_ge (fun hle => hpos (by simpa using hle)), hcore⟩
    · simp at h

/-- Amended C2: for every successful `placeBet` in which no cashback is
applied (in particular whenever the oracle's win is at least the wager), the
recorded bet log satisfies the conservation equation
`(postReal + postBonus) − (preReal + preBonus) = win − wager`, and the
balance type not used by the bet is untouched between the two snapshots. -/
theorem C2_settled_delta_no_cashback
    {db db' : DB} {i : PlaceBetInput} {out : Outcome} {nf : Bool} {r : BetResult}
    (hnn : poolsNonneg db)
    (hwin : i.wager ≤ out.winAmount)
    (h : BetService.placeBet db i out nf = (.ok r, db')) :
    ∃ log : BetLog,
      db'.betLogs = db.betLogs ++ [log] ∧
      (log.postRealBalance + log.postBonusBalance) -
        (log.preRealBalance + log.preBonusBalance) = log.win - log.wager ∧
      (log.betType = BetType.real → log.postBonusBalance = log.preBonusBalance) ∧
      (log.betType = BetType.bonus → log.postRealBalance = log.preRealBalance) ∧
      log.win = r.outcome.winAmount ∧ log.wager = i.wager := by
  obtain ⟨hwager, hcore⟩ := BetService.placeBet_ok h
  obtain ⟨g, w, bt, db1, jc, win, db2, ub, db3, wp, db4, vu, db5, cb, db6, db7, fb, db8,
    lid, h1, h2, h3, h4, h5, h6, h7, h8, h9, -, hr⟩ := placeBetCore_ok_chain hcore
  obtain ⟨hdb1, -, -, hw, hbt⟩ := BetService.phaseValidate_ok h1
  obtain ⟨-, jwal, -, -, -, jlog, jwin⟩ := BetService.phaseJackpot_ok h2
  have hnn1 : poolsNonneg db1 := by rw [hdb1]; exact hnn
  have hwin2 : i.wager ≤ win := le_trans hwin (jwin hnn1)
  have hwin0 : 0 < win := lt_of_lt_of_le hwager hwin2
  have hw2 : WalletService.getWalletBalances db2 i.userId i.operatorId = some w := by
    rw [WalletService.getWalletBalances_congr
      (jwal.trans (congrArg DB.wallets hdb1))]
    exact hw
  obtain ⟨-, -, -, -, -, -, blog, -, hub, -⟩ :=
    BetService.phaseBalances_ok hw2 hwin0 h3
  obtain ⟨-, -, -, -, -, wlog⟩ := updateWageringProgress_ok_tables h4
  obtain ⟨-, -, -, -, -, -, xlog⟩ := VIPService.awardXP_ok h5
  have hnl : ¬(win < i.wager) := not_lt_of_ge hwin2
  have h6' : BetService.phaseCashback i win db5 = (.ok 0, db5) :=
    BetService.phaseCashback_no_loss hnl
  rw [h6'] at h6
  have h6'' : (0 : ℚ) = cb ∧ db5 = db6 := by
    simpa only [Prod.mk.injEq, Except.ok.injEq] using h6
  obtain ⟨hcb, hdb6⟩ := h6''
  obtain ⟨-, -, -, -, -, -, llog⟩ := BetService.phaseLevelUp_ok h7
  obtain ⟨hdb8, hfb⟩ := BetService.phaseFinalBalances_ok h8
  have hfb' : fb = ub := hfb (by rw [← hcb]; exact lt_irrefl 0)
  obtain ⟨hlid, hdb'⟩ := BetService.phaseLog_ok h9
  have hlogs : db8.betLogs = db.betLogs := by
    rw [hdb8, llog, ← hdb6, xlog, wlog, blog, jlog, hdb1]
  refine ⟨BetService.mkBetLog i bt w fb win jc wp, ?_, ?_, ?_, ?_, ?_, ?_⟩
  · rw [hdb']
    simp only []
    rw [hlogs]
  · rw [hfb', hub]
    cases bt with
    | real => simp [BetService.mkBetLog, creditAdj, debitAdj]; ring
    | bonus => simp [BetService.mkBetLog, creditAdj, debitAdj]; ring
  · intro hbtr
    have hbt' : bt = BetType.real := hbtr
    rw [hfb', hub, hbt']
    simp [BetService.mkBetLog, creditAdj, debitAdj]
  · intro hbtb
    have hbt' : bt = BetType.bonus := hbtb
    rw [hfb', hub, hbt']
    simp [BetService.mkBetLog, creditAdj, debitAdj]
  · rw [hr]
    rfl
  · rfl

theorem BetService.phaseBalances_ok_tables {i : PlaceBetInput} {bt : BetType}
    {win : ℚ} {ub : Balances} {db db' : DB}
    (h : BetService.phaseBalances i bt win db = (.ok ub, db')) :
    db'.games = db.games ∧ db'.pools = db.pools ∧ db'.jackpotWins = db.jackpotWins ∧
    db'.users = db.users ∧ db'.vipLevels = db.vipLevels ∧
    db'.bonusTasks = db.bonusTasks ∧ db'.betLogs = db.betLogs := by
  unfold BetService.phaseBalances at h
  split at h
  · simp at h
  · rename_i b1 db1 hdeb
    obtain ⟨-, dg, dp, dj, du, dv, db_, dl, -⟩ := WalletService.debitFromWallet_ok hdeb
    dsimp only [] at h
    split at h
    · simp at h
    · rename_i db2 hcred
      have hpres : db2.games = db1.games ∧ db2.pools = db1.pools ∧
          db2.jackpotWins = db1.jackpotWins ∧ db2.users = db1.users ∧
          db2.vipLevels = db1.vipLevels ∧ db2.bonusTasks = db1.bonusTasks ∧
          db2.betLogs = db1.betLogs := by
        split at hcred
        · split at hcred
          · simp at hcred
          · rename_i p hc2
            obtain ⟨b2, db2x⟩ := p
            cases hcred
            obtain ⟨-, cg, cp, cj, cu, cv, cb_, cl, -⟩ :=
              WalletService.creditToWallet_ok hc2
            exact ⟨cg, cp, cj, cu, cv, cb_, cl⟩
        · cases hcred
          exact ⟨rfl, rfl, rfl, rfl, rfl, rfl, rfl⟩
      obtain ⟨cg, cp, cj, cu, cv, cb_, cl⟩ := hpres
      split at h
      · simp at h
      · cases h
        exact ⟨cg.trans dg, cp.trans dp, cj.trans dj, cu.trans du,
          cv.trans dv, cb_.trans db_, cl.trans dl⟩

theorem BetService.placeBetCore_err_of_validate {i : PlaceBetInput} {out : Outcome}
    {nf : Bool} {db : DB} {e : String}
    (hval : BetService.phaseValidate i db = (.error e, db)) :
    BetService.placeBetCore i out nf db = (.error e, db) := by
  unfold BetService.placeBetCore
  simp only [BetM.bind_eq_bindB, BetM.bindB, hval]

/-- The transactional rollback of `placeBet`: when the callback throws, the
`tx`-written tables come back to their pre-call contents (the shared-connection
tables are *not* restored — see C1). -/
theorem BetService.placeBet_err_restores_tx {db db' : DB} {i : PlaceBetInput}
    {out : Outcome} {nf : Bool} {e : String}
    (h : BetService.placeBet db i out nf = (.error e, db')) :
    db'.bonusTasks = db.bonusTasks ∧ db'.betLogs = db.betLogs := by
  unfold BetService.placeBet at h
  split at h
  · cases h
    exact ⟨rfl, rfl⟩
  · split at h
    · simp at h
    · cases h
      exact ⟨rfl, rfl⟩

/-- Amended C3: with game and wallet present and the wager in bounds, the bet
type is real when `realBalance ≥ wager`, bonus when `realBalance < wager ≤
bonusBalance` (no bonus-permission flag exists anywhere in the code), and the
call fails `Insufficient funds` — mutating nothing — when both balances are
short. -/
theorem C3_bet_type_choice
    {db : DB} {i : PlaceBetInput} {out : Outcome} {nf : Bool} {g : Game} {w : Balances}
    (hwager : 0 < i.wager)
    (hg : db.games.find? (fun x => x.id == i.gameId) = some g)
    (hbounds : ¬(i.wager < g.minBet ∨ g.maxBet < i.wager))
    (hw : WalletService.getWalletBalances db i.userId i.operatorId = some w) :
    ((w.realBalance < i.wager ∧ w.bonusBalance < i.wager) →
       BetService.placeBet db i out nf = (.error "Insufficient funds", db)) ∧
    (∀ r db', BetService.placeBet db i out nf = (.ok r, db') →
       ∃ log : BetLog, db'.betLogs = db.betLogs ++ [log] ∧
         (log.betType = BetType.real ↔ i.wager ≤ w.realBalance) ∧
         (log.betType = BetType.bonus ↔
           (w.realBalance < i.wager ∧ i.wager ≤ w.bonusBalance))) := by
  constructor
  · rintro ⟨hshortR, hshortB⟩
    have hval : BetService.phaseValidate i db = (.error "Insufficient funds", db) := by
      unfold BetService.phaseValidate
      simp only [hg, hw, if_neg hbounds, ge_iff_le,
        if_neg (not_le_of_gt hshortR), if_neg (not_le_of_gt hshortB)]
    unfold BetService.placeBet
    rw [if_neg (not_not_intro hwager)]
    have herr : BetService.placeBetCore i out nf db = (.error "Insufficient funds", db) :=
      BetService.placeBetCore_err_of_validate hval
    simp only [herr]
  · intro r db' hok
    obtain ⟨-, hcore⟩ := BetService.placeBet_ok hok
    obtain ⟨g2, w2, bt, db1, jc, win, db2, ub, db3, wp, db4, vu, db5, cb, db6, db7, fb,
      db8, lid, h1, h2, h3, h4, h5, h6, h7, h8, h9, -, -⟩ := placeBetCore_ok_chain hcore
    obtain ⟨hdb1, hfind, -, hw2, hbt⟩ := BetService.phaseValidate_ok h1
    have hweq : w2 = w := by
      rw [hw] at hw2
      exact (Option.some.injEq _ _ ▸ hw2).symm ▸ rfl
    obtain ⟨-, -, -, -, -, jlog, -⟩ := BetService.phaseJackpot_ok h2
    obtain ⟨-, -, -, -, -, -, blog⟩ := BetService.phaseBalances_ok_tables h3
    obtain ⟨-, -, -, -, -, wlog⟩ := updateWageringProgress_ok_tables h4
    obtain ⟨-, -, -, -, -, -, xlog⟩ := VIPService.awardXP_ok h5
    obtain ⟨-, -, -, -, -, -, clog⟩ := BetService.phaseCashback_ok h6
    obtain ⟨-, -, -, -, -, -, llog⟩ := BetService.phaseLevelUp_ok h7
    obtain ⟨hdb8, -⟩ := BetService.phaseFinalBalances_ok h8
    obtain ⟨-, hdb'⟩ := BetService.phaseLog_ok h9
    refine ⟨BetService.mkBetLog i bt w2 fb win jc wp, ?_, ?_, ?_⟩
    · rw [hdb']
      simp only []
      rw [hdb8, llog, clog, xlog, wlog, blog, jlog, hdb1]
    · constructor
      · intro hbtr
        have hbtr' : bt = BetType.real := hbtr
        rcases hbt with ⟨-, hle⟩ | ⟨hbb, -, -⟩
        · rw [← hweq]; exact hle
        · rw [hbtr'] at hbb; cases hbb
      · intro hle
        rcases hbt with ⟨hbr, -⟩ | ⟨-, hlt, -⟩
        · exact hbr
        · rw [hweq] at hlt; exact absurd hle (not_le_of_gt hlt)
    · constructor
      · intro hbtb
        have hbtb' : bt = BetType.bonus := hbtb
        rcases hbt with ⟨hbr, -⟩ | ⟨-, hlt, hle⟩
        · rw [hbtb'] at hbr; cases hbr
        · rw [← hweq]; exact ⟨hlt, hle⟩
      · rintro ⟨hlt, hle⟩
        rcases hbt with ⟨-, hler⟩ | ⟨hbb, -, -⟩
        · rw [hweq] at hler; exact absurd hler (not_le_of_gt hlt)
        · exact hbb

/-- A `find?` for a weaker predicate that lands on a row satisfying a
stronger predicate is also the `find?` for the stronger one. -/
theorem find?_of_stronger {α : Type} {l : List α} {p q : α → Bool} {a : α}
    (hq : l.find? q = some a) (hpa : p a = true)
    (himp : ∀ x, p x = true → q x = true) :
    l.find? p = some a := by
  induction l with
  | nil => simp at hq
  | cons x t ih =>
      by_cases hqx : q x = true
      · rw [List.find?_cons, hqx] at hq
        simp only [reduceIte] at hq
        injection hq with hxa
        subst hxa
        simp [List.find?_cons, hpa]
      · have hqx' : q x = false := by simpa using hqx
        have hpx : p x = false := by
          by_contra hc
          simp only [Bool.not_eq_false] at hc
          exact hqx (himp x hc)
        rw [List.find?_cons, hqx'] at hq
        rw [List.find?_cons, hpx]
        simp only [Bool.false_eq_true, if_false] at hq ⊢
        exact ih hq

/-- `toFixed(2)` is the identity on whole-cent amounts. -/
theorem toFixed2_cents {q : ℚ} (h : ∃ n : ℤ, q = (n : ℚ) / 100) :
    toFixed2 q = q := by
  obtain ⟨n, rfl⟩ := h
  unfold toFixed2
  rw [div_mul_cancel₀ (b := (100:ℚ)) (a := (n:ℚ)) (by norm_num)]
  rw [round_intCast]

theorem BetService.phaseJackpot_single_grand
    {i : PlaceBetInput} {out : Outcome} {g : Game} {db : DB}
    {grp : Nat} {p0 : JackpotPool}
    (hgrp : g.jackpotGroup = some grp)
    (hjw : out.isJackpotWin = true)
    (hfilter : db.pools.filter (fun p => p.group == grp && p.isActive) = [p0])
    (hfind : db.pools.find? (fun p => p.group == grp && p.level == JackpotLevel.grand)
      = some p0)
    (hlvl : p0.level = JackpotLevel.grand)
    (hc : 0 ≤ i.wager * p0.contributionRate)
    (hv : 0 < p0.currentValue + i.wager * p0.contributionRate) :
    ∃ db2,
      BetService.phaseJackpot i out g db =
        (.ok (0 + i.wager * p0.contributionRate,
              out.winAmount + (p0.currentValue + i.wager * p0.contributionRate)), db2) ∧
      db2.pools.find? (fun p => p.group == grp && p.level == JackpotLevel.grand)
        = some { p0 with currentValue := toFixed2 p0.seedValue } ∧
      db2.jackpotWins = db.jackpotWins ++
        [{ group := grp, level := JackpotLevel.grand, userId := i.userId,
           operatorId := i.operatorId, gameId := i.gameId,
           amount := p0.currentValue + i.wager * p0.contributionRate }] := by
  have hp0mem : (p0.group == grp && p0.isActive) = true := by
    have hmem : p0 ∈ db.pools.filter (fun p => p.group == grp && p.isActive) := by
      rw [hfilter]; exact List.mem_singleton.mpr rfl
    exact (List.mem_filter.mp hmem).2
  have hp0grp : (p0.group == grp) = true := by
    exact (Bool.and_eq_true _ _ ▸ hp0mem).1
  have hp0act : p0.isActive = true := by
    exact (Bool.and_eq_true _ _ ▸ hp0mem).2
  have hkey : (p0.group == grp && p0.level == JackpotLevel.grand) = true := by
    simp [hp0grp, hlvl]
  have hkeyadj : ∀ a : JackpotPool,
      ((fun p => p.group == grp && p.level == JackpotLevel.grand)
        (if (a.group == grp && a.level == JackpotLevel.grand) = true then
          { a with currentValue := a.currentValue + i.wager * p0.contributionRate }
        else a))
      = (fun p => p.group == grp && p.level == JackpotLevel.grand) a := by
    intro a
    by_cases hk : (a.group == grp && a.level == JackpotLevel.grand) = true
    · simp only [hk, if_true]
    · simp only [Bool.not_eq_true] at hk
      simp [hk]
  have hcalc : JackpotService.calculateContributions db i.wager grp
      = [(JackpotLevel.grand, i.wager * p0.contributionRate)] := by
    unfold JackpotService.calculateContributions JackpotService.getJackpotPoolsForGroup
    rw [hfilter]
    simp [hlvl]
  have hcontrib : JackpotService.contributeToJackpot db grp JackpotLevel.grand
      (i.wager * p0.contributionRate)
      = .ok (p0.currentValue + i.wager * p0.contributionRate,
        { db with pools := db.pools.map (fun p =>
          if p.group == grp && p.level == JackpotLevel.grand then
            { p with currentValue := p.currentValue + i.wager * p0.contributionRate }
          else p) }) := by
    unfold JackpotService.contributeToJackpot
    rw [if_neg (not_lt_of_ge hc)]
    dsimp only []
    rw [find?_map_congr (q := fun p => p.group == grp && p.level == JackpotLevel.grand)
      (g := fun (p : JackpotPool) =>
        if (p.group == grp && p.level == JackpotLevel.grand) = true then
          { p with currentValue := p.currentValue + i.wager * p0.contributionRate }
        else p) hkeyadj]
    rw [hfind]
    simp only [Option.map_some', if_pos hkey]
  have hloop : BetService.contribLoop grp
      [(JackpotLevel.grand, i.wager * p0.contributionRate)] 0 db
      = (.ok (0 + i.wager * p0.contributionRate),
         { db with pools := db.pools.map (fun p =>
           if p.group == grp && p.level == JackpotLevel.grand then
             { p with currentValue := p.currentValue + i.wager * p0.contributionRate }
           else p) }) := by
    unfold BetService.contribLoop
    rw [hcontrib]
    unfold BetService.contribLoop
    rfl
  have hfindA : (db.pools.map (fun p =>
      if p.group == grp && p.level == JackpotLevel.grand then
        { p with currentValue := p.currentValue + i.wager * p0.contributionRate }
      else p)).find? (fun p => p.group == grp && p.level == JackpotLevel.grand)
      = some { p0 with currentValue := p0.currentValue + i.wager * p0.contributionRate } := by
    rw [find?_map_congr (q := fun p => p.group == grp && p.level == JackpotLevel.grand)
      (g := fun (p : JackpotPool) =>
        if (p.group == grp && p.level == JackpotLevel.grand) = true then
          { p with currentValue := p.currentValue + i.wager * p0.contributionRate }
        else p) hkeyadj]
    rw [hfind]
    simp only [Option.map_some', if_pos hkey]
  have hgetv : JackpotService.getJackpotValue
      { db with pools := db.pools.map (fun p =>
        if p.group == grp && p.level == JackpotLevel.grand then
          { p with currentValue := p.currentValue + i.wager * p0.contributionRate }
        else p) } grp JackpotLevel.grand
      = some (p0.currentValue + i.wager * p0.contributionRate) := by
    unfold JackpotService.getJackpotValue
    simp only []
    rw [find?_of_stronger (q := fun p => p.group == grp && p.level == JackpotLevel.grand)
      hfindA (by simp [hp0grp, hlvl, hp0act]) (by
        intro x hx
        simp only [Bool.and_eq_true] at hx
        simp [hx.1.1, hx.1.2])]
    rfl
  refine ⟨{ db with
      pools := (db.pools.map (fun p =>
        if p.group == grp && p.level == JackpotLevel.grand then
          { p with currentValue := p.currentValue + i.wager * p0.contributionRate }
        else p)).map (fun p =>
          if p.group == grp && p.level == JackpotLevel.grand then
            { p with currentValue := toFixed2 p0.seedValue }
          else p),
      jackpotWins := db.jackpotWins ++
        [{ group := grp, level := JackpotLevel.grand, userId := i.userId,
           operatorId := i.operatorId, gameId := i.gameId,
           amount := p0.currentValue + i.wager * p0.contributionRate }] }, ?_, ?_, ?_⟩
  · unfold BetService.phaseJackpot
    simp only [hgrp]
    rw [hcalc, hloop]
    simp only [hjw, if_true, hgetv]
    have hne : ((p0.currentValue + i.wager * p0.contributionRate) == 0) = false := by
      simp only [beq_eq_false_iff_ne, ne_eq]
      exact ne_of_gt hv
    simp only [hne, Bool.false_eq_true, if_false]
    unfold JackpotService.awardJackpot
    rw [if_neg (not_not_intro hv)]
    dsimp only []
    rw [hfindA]
  · dsimp only []
    rw [find?_map_congr (q := fun p => p.group == grp && p.level == JackpotLevel.grand)
      (g := fun (p : JackpotPool) =>
        if (p.group == grp && p.level == JackpotLevel.grand) = true then
          { p with currentValue := toFixed2 p0.seedValue }
        else p) (by
          intro a
          by_cases hk : (a.group == grp && a.level == JackpotLevel.grand) = true
          · simp only [hk, if_true]
          · simp only [Bool.not_eq_true] at hk
            simp [hk])]
    rw [hfindA]
    simp only [Option.map_some', if_pos hkey]
  · rfl

/-- Amended C5: on a jackpot win for a jackpot-group game whose only active
pool is the grand-level pool, the engine awards the grand pool's value *as it
stands after this wager's own contribution* (`currentValue + wager × rate`),
adds it to the win, records the award, and resets the pool to its seed value
before the call returns. -/
theorem C5_jackpot_award
    {db db' : DB} {i : PlaceBetInput} {out : Outcome} {nf : Bool} {r : BetResult}
    {g : Game} {grp : Nat} {p0 : JackpotPool}
    (hg : db.games.find? (fun x => x.id == i.gameId) = some g)
    (hgrp : g.jackpotGroup = some grp)
    (hjw : out.isJackpotWin = true)
    (hfilter : db.pools.filter (fun p => p.group == grp && p.isActive) = [p0])
    (hfind : db.pools.find? (fun p => p.group == grp && p.level == JackpotLevel.grand)
      = some p0)
    (hlvl : p0.level = JackpotLevel.grand)
    (hc : 0 ≤ i.wager * p0.contributionRate)
    (hv : 0 < p0.currentValue + i.wager * p0.contributionRate)
    (hseed : ∃ n : ℤ, p0.seedValue = (n : ℚ) / 100)
    (h : BetService.placeBet db i out nf = (.ok r, db')) :
    r.outcome.winAmount
      = out.winAmount + (p0.currentValue + i.wager * p0.contributionRate) ∧
    r.jackpotContribution = i.wager * p0.contributionRate ∧
    db'.pools.find? (fun p => p.group == grp && p.level == JackpotLevel.grand)
      = some { p0 with currentValue := p0.seedValue } ∧
    db'.jackpotWins = db.jackpotWins ++
      [{ group := grp, level := JackpotLevel.grand, userId := i.userId,
         operatorId := i.operatorId, gameId := i.gameId,
         amount := p0.currentValue + i.wager * p0.contributionRate }] := by
  obtain ⟨-, hcore⟩ := BetService.placeBet_ok h
  obtain ⟨g2, w, bt, db1, jc, win, db2, ub, db3, wp, db4, vu, db5, cb, db6, db7, fb,
    db8, lid, h1, h2, h3, h4, h5, h6, h7, h8, h9, -, hr⟩ := placeBetCore_ok_chain hcore
  obtain ⟨hdb1, hfindg, -, -, -⟩ := BetService.phaseValidate_ok h1
  have hg2 : g2 = g := by
    rw [hg] at hfindg
    exact (Option.some.inj hfindg).symm
  obtain ⟨db2L, heval, hfind2, hwins2⟩ :=
    BetService.phaseJackpot_single_grand (i := i) (g := g)
      hgrp hjw hfilter hfind hlvl hc hv
  rw [hdb1, hg2, heval] at h2
  simp only [Prod.mk.injEq, Except.ok.injEq] at h2
  obtain ⟨⟨hjc, hwin⟩, hdb2⟩ := h2
  obtain ⟨-, hbp, hbj, -, -, -, -⟩ := BetService.phaseBalances_ok_tables h3
  obtain ⟨-, hwp, hwj, -, -, -⟩ := updateWageringProgress_ok_tables h4
  obtain ⟨-, -, hxp, hxj, -, -, -⟩ := VIPService.awardXP_ok h5
  obtain ⟨-, hcp, hcj, -, -, -, -⟩ := BetService.phaseCashback_ok h6
  obtain ⟨-, hlp, hlj, -, -, -, -⟩ := BetService.phaseLevelUp_ok h7
  obtain ⟨hdb8, -⟩ := BetService.phaseFinalBalances_ok h8
  obtain ⟨-, hdb'⟩ := BetService.phaseLog_ok h9
  have hpools : db'.pools = db2L.pools := by
    rw [hdb']
    show db8.pools = db2L.pools
    rw [hdb8, hlp, hcp, hxp, hwp, hbp, ← hdb2]
  have hwinsEq : db'.jackpotWins = db2L.jackpotWins := by
    rw [hdb']
    show db8.jackpotWins = db2L.jackpotWins
    rw [hdb8, hlj, hcj, hxj, hwj, hbj, ← hdb2]
  refine ⟨?_, ?_, ?_, ?_⟩
  · rw [hr]
    show win = _
    rw [← hwin]
  · rw [hr]
    show jc = _
    rw [← hjc, zero_add]
  · rw [hpools, hfind2, toFixed2_cents hseed]
  · rw [hwinsEq, hwins2]

/-- Amended C1: when the settlement callback throws, only the tables written
through the transaction handle — the bet-record log and the bonus tasks —
are rolled back to their pre-call contents.  Wallet balances, jackpot pools,
jackpot win records and loyalty experience were mutated through the shared
service connection and are not restored (see the counterexample). -/
theorem C1_error_rolls_back_tx_tables_only
    {db db' : DB} {i : PlaceBetInput} {out : Outcome} {nf : Bool} {e : String}
    (h : BetService.placeBet db i out nf = (.error e, db')) :
    db'.bonusTasks = db.bonusTasks ∧ db'.betLogs = db.betLogs :=
  BetService.placeBet_err_restores_tx h

/-- Amended C7: the notification push runs inside the transaction callback.
When delivery throws, `placeBet` never resolves with a result, and the
transaction-side writes (bet record, bonus tasks) roll back; the
shared-connection mutations persist. -/
theorem C7_notify_failure_aborts_bet
    {db db' : DB} {i : PlaceBetInput} {out : Outcome} {rE : Except String BetResult}
    (h : BetService.placeBet db i out true = (rE, db')) :
    (∀ r : BetResult, rE ≠ .ok r) ∧
    db'.bonusTasks = db.bonusTasks ∧ db'.betLogs = db.betLogs := by
  have hnotok : ∀ r : BetResult, rE ≠ .ok r := by
    intro r hr
    subst hr
    obtain ⟨-, hcore⟩ := BetService.placeBet_ok h
    obtain ⟨g, w, bt, db1, jc, win, db2, ub, db3, wp, db4, vu, db5, cb, db6, db7, fb,
      db8, lid, -, -, -, -, -, -, -, -, -, hnf, -⟩ := placeBetCore_ok_chain hcore
    cases hnf
  refine ⟨hnotok, ?_⟩
  cases rE with
  | ok r => exact absurd rfl (hnotok r)
  | error e => exact BetService.placeBet_err_restores_tx h

/-- C4 (code bug): the source's `getCurrentLevel` selects
`minExperience >= xp ORDER BY ASC` — the *lowest* level whose threshold is at
least the experience — where the spec, the sibling
`VIPRewardService.getCurrentVIPLevel` query, and the unit-test fixtures all
use the highest level whose threshold is met.  At 50 XP the code reports
level 2 while the spec's level is 1, and `awardXP` taking a user from 0 XP to
50 XP reports a spurious level-up to level 2. -/
theorem C4_getCurrentLevel_divergence :
    (VIPService.getCurrentLevel dbC4 50).map (fun l => l.level) = some 2 ∧
    (specCurrentLevel vipTableC4 50).map (fun l => l.level) = some 1 ∧
    (specCurrentLevel vipTableC4 0).map (fun l => l.level) = some 1 ∧
    VIPService.awardXP dbC4 1 50 1 =
      .ok ({ newXP := 50, levelUp := some { newLevel := 2, levelName := "Silver" } },
        { dbC4 with users := [{ id := 1, vipExperience := 50 }] }) := by
  refine ⟨by decide, by decide, by decide, ?_⟩
  with_unfolding_all rfl

theorem WalletService.creditToWallet_eval {db : DB} {u o : Nat} {amount : ℚ}
    {c : Bool} {w : Balances}
    (hpos : 0 < amount) (hw : WalletService.getWalletBalances db u o = some w) :
    ∃ db', WalletService.creditToWallet db u o amount c
        = .ok (creditAdj amount c w, db') ∧
      WalletService.getWalletBalances db' u o = some (creditAdj amount c w) ∧
      db'.games = db.games ∧ db'.pools = db.pools ∧ db'.jackpotWins = db.jackpotWins ∧
      db'.users = db.users ∧ db'.vipLevels = db.vipLevels ∧
      db'.bonusTasks = db.bonusTasks ∧ db'.betLogs = db.betLogs := by
  rcases hc : WalletService.creditToWallet db u o amount c with e | p
  · exfalso
    unfold WalletService.creditToWallet at hc
    rw [if_neg (not_not_intro hpos)] at hc
    dsimp only [] at hc
    obtain ⟨w0, hf, hw0⟩ := Option.map_eq_some'.mp hw
    have hkey : (w0.userId == u && w0.operatorId == o) = true := (mem_of_find? hf).2
    rw [WalletService.find?_wallets_update
      (fun r => if c then { r with realBalance := r.realBalance + amount }
        else { r with bonusBalance := r.bonusBalance + amount })
      (by intro r; by_cases hr : c <;> simp [hr])] at hc
    rw [hf] at hc
    simp at hc
  · obtain ⟨b, db'⟩ := p
    obtain ⟨-, hg, hp, hj, hu, hv, hb, hl, w1, hw1, hbv, hgb⟩ :=
      WalletService.creditToWallet_ok hc
    rw [hw] at hw1
    cases hw1
    exact ⟨db', by rw [hbv], by rw [← hbv]; exact hgb, hg, hp, hj, hu, hv, hb, hl⟩

theorem WalletService.debitFromWallet_eval {db : DB} {u o : Nat} {amount : ℚ}
    {isReal : Bool} {w : Balances}
    (hpos : 0 < amount) (hw : WalletService.getWalletBalances db u o = some w)
    (hsuff : amount ≤ (if isReal then w.realBalance else w.bonusBalance)) :
    ∃ db', WalletService.debitFromWallet db u o amount isReal
        = .ok (debitAdj amount isReal w, db') ∧
      WalletService.getWalletBalances db' u o = some (debitAdj amount isReal w) ∧
      db'.games = db.games ∧ db'.pools = db.pools ∧ db'.jackpotWins = db.jackpotWins ∧
      db'.users = db.users ∧ db'.vipLevels = db.vipLevels ∧
      db'.bonusTasks = db.bonusTasks ∧ db'.betLogs = db.betLogs := by
  rcases hc : WalletService.debitFromWallet db u o amount isReal with e | p
  · exfalso
    unfold WalletService.debitFromWallet at hc
    rw [if_neg (not_not_intro hpos), hw] at hc
    dsimp only [] at hc
    rw [if_neg (not_lt_of_ge hsuff)] at hc
    obtain ⟨w0, hf, hw0⟩ := Option.map_eq_some'.mp hw
    have hkey : (w0.userId == u && w0.operatorId == o) = true := (mem_of_find? hf).2
    rw [WalletService.find?_wallets_update
      (fun r => if isReal then { r with realBalance := r.realBalance - amount }
        else { r with bonusBalance := r.bonusBalance - amount })
      (by intro r; by_cases hr : isReal <;> simp [hr])] at hc
    rw [hf] at hc
    simp at hc
  · obtain ⟨b, db'⟩ := p
    obtain ⟨-, hg, hp, hj, hu, hv, hb, hl, w1, hw1, -, hbv, hgb⟩ :=
      WalletService.debitFromWallet_ok hc
    rw [hw] at hw1
    cases hw1
    exact ⟨db', by rw [hbv], by rw [← hbv]; exact hgb, hg, hp, hj, hu, hv, hb, hl⟩

/-- C9: with a positive amount, `debitFromWallet` fails `Wallet not found`
exactly when the wallet row is absent, fails `Insufficient balance` exactly
when the freshly read targeted balance is below the amount (mutating nothing
in either case — the `UPDATE` never runs), and on success decreases exactly
the targeted balance by the amount, leaving the other balance unchanged, so
a nonnegative wallet never goes negative. -/
theorem C9_debit_safety {db : DB} {u o : Nat} {amount : ℚ} {isReal : Bool}
    (hpos : 0 < amount) :
    (WalletService.getWalletBalances db u o = none →
      WalletService.debitFromWallet db u o amount isReal = .error "Wallet not found") ∧
    (∀ w, WalletService.getWalletBalances db u o = some w →
      ((if isReal then w.realBalance else w.bonusBalance) < amount →
        WalletService.debitFromWallet db u o amount isReal
          = .error "Insufficient balance") ∧
      (amount ≤ (if isReal then w.realBalance else w.bonusBalance) →
        ∃ db', WalletService.debitFromWallet db u o amount isReal
            = .ok (debitAdj amount isReal w, db') ∧
          WalletService.getWalletBalances db' u o = some (debitAdj amount isReal w) ∧
          (isReal = true →
            (debitAdj amount isReal w).realBalance = w.realBalance - amount ∧
            (debitAdj amount isReal w).bonusBalance = w.bonusBalance) ∧
          (isReal = false →
            (debitAdj amount isReal w).bonusBalance = w.bonusBalance - amount ∧
            (debitAdj amount isReal w).realBalance = w.realBalance) ∧
          (0 ≤ w.realBalance → 0 ≤ w.bonusBalance →
            0 ≤ (debitAdj amount isReal w).realBalance ∧
            0 ≤ (debitAdj amount isReal w).bonusBalance))) := by
  constructor
  · intro hnone
    unfold WalletService.debitFromWallet
    rw [if_neg (not_not_intro hpos), hnone]
  · intro w hw
    constructor
    · intro hlt
      unfold WalletService.debitFromWallet
      rw [if_neg (not_not_intro hpos), hw]
      dsimp only []
      rw [if_pos hlt]
    · intro hsuff
      obtain ⟨db', hc, hgb, -⟩ := WalletService.debitFromWallet_eval hpos hw hsuff
      refine ⟨db', hc, hgb, ?_, ?_, ?_⟩
      · intro hr; rw [hr]; simp [debitAdj]
      · intro hr; rw [hr]; simp [debitAdj]
      · intro hwr hwb
        rcases isReal with _ | _
        · simp only [Bool.false_eq_true, if_false] at hsuff
          constructor
          · simpa [debitAdj] using hwr
          · simp only [debitAdj, Bool.false_eq_true, if_false]
            linarith
        · simp only [if_true] at hsuff
          constructor
          · simp only [debitAdj, if_true]
            linarith
          · simpa [debitAdj] using hwb

/-- The element produced by the latest-`createdAt` fold is the accumulator or
a list member. -/
theorem foldl_latest_mem {l : List BonusTask} {acc : Option BonusTask} {a : BonusTask}
    (h : l.foldl (fun best t =>
      match best with
      | none => some t
      | some b => if b.createdAt < t.createdAt then some t else b) acc = some a) :
    acc = some a ∨ a ∈ l := by
  induction l generalizing acc with
  | nil => exact .inl h
  | cons x t ih =>
      rcases ih h with hstep | hmem
      · rcases acc with _ | b
        · cases hstep
          exact .inr (List.mem_cons_self _ _)
        · dsimp only [] at hstep
          split at hstep
          · cases hstep
            exact .inr (List.mem_cons_self _ _)
          · exact .inl hstep
      · exact .inr (List.mem_cons_of_mem _ hmem)

theorem latestActiveTask_props {db : DB} {u o : Nat} {t : BonusTask}
    (h : latestActiveTask db u o = some t) :
    (t.userId == u && t.operatorId == o && t.isCompleted == false) = true := by
  unfold latestActiveTask at h
  rcases foldl_latest_mem h with hacc | hmem
  · cases hacc
  · exact (List.mem_filter.mp hmem).2

/-- Amended C8: a real-type wager advances no task; a bonus-type wager with
at least one active task advances exactly the most recently created active
task — a completed task is never selected — adding exactly the wager to its
`wagered`; when the new total reaches `wageringRequired` the task is marked
completed, and the remainder `awardedAmount − wageredBeforeThisBet` is
credited to the real balance only when it is positive (nothing is credited
when it is zero or negative). -/
theorem C8_wagering_tracker
    {db : DB} {u o : Nat} {wager : ℚ} {t : BonusTask}
    (hlatest : latestActiveTask db u o = some t) :
    updateWageringProgress u o BetType.real wager db = (.ok none, db) ∧
    t.isCompleted = false ∧
    (∀ wp db', updateWageringProgress u o BetType.bonus wager db = (.ok wp, db') →
      wp = some { taskId := t.id, taskType := t.taskType,
                  wagered := t.wagered + wager, required := t.wageringRequired,
                  isCompleted := decide (t.wageringRequired ≤ t.wagered + wager) } ∧
      db'.bonusTasks = db.bonusTasks.map (fun x =>
        if x.id == t.id then
          { x with
            wagered := t.wagered + wager,
            isCompleted := decide (t.wageringRequired ≤ t.wagered + wager) }
        else x) ∧
      (¬(t.wageringRequired ≤ t.wagered + wager) → db'.wallets = db.wallets) ∧
      (t.wageringRequired ≤ t.wagered + wager → t.awardedAmount - t.wagered ≤ 0 →
        db'.wallets = db.wallets) ∧
      (t.wageringRequired ≤ t.wagered + wager → 0 < t.awardedAmount - t.wagered →
        ∀ w, WalletService.getWalletBalances db u o = some w →
          WalletService.getWalletBalances db' u o
            = some { w with
                realBalance := w.realBalance + (t.awardedAmount - t.wagered) })) := by
  have hprops := latestActiveTask_props hlatest
  have hact : t.isCompleted = false := by
    simp only [Bool.and_eq_true, beq_iff_eq] at hprops
    exact hprops.2
  refine ⟨by unfold updateWageringProgress; rfl, hact, ?_⟩
  intro wp db' h
  unfold updateWageringProgress at h
  simp only [beq_self_eq_true, reduceIte] at h
  rw [hlatest] at h
  dsimp only [] at h
  have hrem : t.awardedAmount - (t.wagered + wager - wager) = t.awardedAmount - t.wagered := by
    ring
  by_cases hcross : t.wageringRequired ≤ t.wagered + wager
  · rw [if_pos (by simpa using hcross)] at h
    rw [hrem] at h
    by_cases hpos : 0 < t.awardedAmount - t.wagered
    · rw [if_pos hpos] at h
      split at h
      · simp at h
      · rename_i p hcred
        obtain ⟨b, db2⟩ := p
        cases h
        obtain ⟨-, -, -, -, -, -, hbt2, -, w1, hw1, hb, hgb⟩ :=
          WalletService.creditToWallet_ok hcred
        refine ⟨rfl, ?_, ?_, ?_, ?_⟩
        · rw [hbt2]
        · intro hc; exact absurd hcross hc
        · intro _ hle; exact absurd hpos (not_lt_of_ge hle)
        · intro _ _ w hw
          have hw1' : w1 = w := by
            rw [show WalletService.getWalletBalances
                { db with bonusTasks := db.bonusTasks.map fun x =>
                    if x.id == t.id then
                      { x with
                        wagered := t.wagered + wager,
                        isCompleted := decide (t.wageringRequired ≤ t.wagered + wager) }
                    else x } u o
              = WalletService.getWalletBalances db u o from
                WalletService.getWalletBalances_congr rfl, hw] at hw1
            exact (Option.some.inj hw1).symm
          rw [hgb, hb, hw1']
          simp [creditAdj]
    · rw [if_neg hpos] at h
      cases h
      exact ⟨rfl, rfl, fun hc => absurd hcross hc, fun _ _ => rfl,
        fun _ hp _ _ => absurd hp hpos⟩
  · rw [if_neg (by simpa using hcross)] at h
    cases h
    exact ⟨rfl, rfl, fun _ => rfl, fun hc _ => absurd hc hcross,
      fun hc _ _ _ => absurd hc hcross⟩

/-- C10: when a bonus wager completes the selected task with a positive
remainder, the remainder is credited to the real balance, the bonus balance
is not debited by the conversion, and the wallet's combined total increases
by exactly the remainder. -/
theorem C10_conversion_increases_total
    {db : DB} {u o : Nat} {wager : ℚ} {t : BonusTask} {w : Balances}
    (hlatest : latestActiveTask db u o = some t)
    (hcross : t.wageringRequired ≤ t.wagered + wager)
    (hrem : 0 < t.awardedAmount - t.wagered)
    (hw : WalletService.getWalletBalances db u o = some w) :
    ∃ wp db', updateWageringProgress u o BetType.bonus wager db = (.ok wp, db') ∧
      WalletService.getWalletBalances db' u o
        = some { w with realBalance := w.realBalance + (t.awardedAmount - t.wagered) } ∧
      ({ w with realBalance := w.realBalance + (t.awardedAmount - t.wagered) }).bonusBalance
        = w.bonusBalance ∧
      ({ w with realBalance := w.realBalance + (t.awardedAmount - t.wagered) }).realBalance
        + ({ w with realBalance := w.realBalance + (t.awardedAmount - t.wagered) }).bonusBalance
        = (w.realBalance + w.bonusBalance) + (t.awardedAmount - t.wagered) := by
  have hdb1 : WalletService.getWalletBalances
      { db with bonusTasks := db.bonusTasks.map fun x =>
          if x.id == t.id then
            { x with
              wagered := t.wagered + wager,
              isCompleted := decide (t.wageringRequired ≤ t.wagered + wager) }
          else x } u o = some w := by
    rw [WalletService.getWalletBalances_congr rfl]
    exact hw
  obtain ⟨db2, hcred, hgb, -⟩ :=
    WalletService.creditToWallet_eval (c := true) hrem hdb1
  refine ⟨some { taskId := t.id,
                 taskType := t.taskType,
                 wagered := t.wagered + wager,
                 required := t.wageringRequired,
                 isCompleted := decide (t.wageringRequired ≤ t.wagered + wager) },
    db2, ?_, ?_, ?_, ?_⟩
  · unfold updateWageringProgress
    simp only [beq_self_eq_true, reduceIte]
    rw [hlatest]
    dsimp only []
    rw [if_pos (by simpa using hcross)]
    rw [show t.awardedAmount - (t.wagered + wager - wager) = t.awardedAmount - t.wagered
      from by ring]
    rw [if_pos hrem, hcred]
  · rw [hgb]
    simp [creditAdj]
  · rfl
  · simp only []
    ring

/-- C6: every active pool of a wagered group is listed for a contribution of
exactly `wager × contributionRate`; applying that contribution moves the
pool from `previousValue` to `previousValue + wager × rate`; and an award
resets the pool's `currentValue` to exactly `seedValue` (the source writes
`seedValue.toFixed(2)`, the identity on whole-cent seeds). -/
theorem C6_contribution_and_reset
    {db : DB} {grp : Nat} {wager : ℚ} {p0 : JackpotPool}
    (hmem : p0 ∈ db.pools) (hgrp : p0.group = grp) (hact : p0.isActive = true)
    (hfind : db.pools.find? (fun p => p.group == grp && p.level == p0.level) = some p0)
    (hwager : 0 ≤ wager) (hrate : 0 ≤ p0.contributionRate)
    (hseed : ∃ n : ℤ, p0.seedValue = (n : ℚ) / 100) :
    (p0.level, wager * p0.contributionRate)
      ∈ JackpotService.calculateContributions db wager grp ∧
    (∃ db2, JackpotService.contributeToJackpot db grp p0.level
        (wager * p0.contributionRate)
        = .ok (p0.currentValue + wager * p0.contributionRate, db2) ∧
      db2.pools.find? (fun p => p.group == grp && p.level == p0.level)
        = some { p0 with
            currentValue := p0.currentValue + wager * p0.contributionRate }) ∧
    (∀ u o gid amt db3, JackpotService.awardJackpot db grp p0.level u o gid amt = .ok db3 →
      db3.pools.find? (fun p => p.group == grp && p.level == p0.level)
        = some { p0 with currentValue := p0.seedValue }) := by
  have hkey : (p0.group == grp && p0.level == p0.level) = true := by
    simp [hgrp]
  have hkeyadj : ∀ g2 : JackpotPool → JackpotPool,
      (∀ a, (g2 a).group = a.group ∧ (g2 a).level = a.level) →
      ∀ a : JackpotPool,
        ((fun p => p.group == grp && p.level == p0.level)
          (if (a.group == grp && a.level == p0.level) = true then g2 a else a))
        = (fun p => p.group == grp && p.level == p0.level) a := by
    intro g2 hg2 a
    by_cases hk : (a.group == grp && a.level == p0.level) = true
    · simp only [hk, if_true]
      simp [(hg2 a).1, (hg2 a).2]
      simp only [Bool.and_eq_true] at hk
      simp [beq_iff_eq] at hk ⊢
      exact hk
    · simp only [Bool.not_eq_true] at hk
      simp [hk]
  refine ⟨?_, ?_, ?_⟩
  · unfold JackpotService.calculateContributions JackpotService.getJackpotPoolsForGroup
    refine List.mem_map.mpr ⟨p0, ?_, rfl⟩
    exact List.mem_filter.mpr ⟨hmem, by simp [hgrp, hact]⟩
  · refine ⟨{ db with pools := db.pools.map (fun p =>
        if p.group == grp && p.level == p0.level then
          { p with currentValue := p.currentValue + wager * p0.contributionRate }
        else p) }, ?_, ?_⟩
    · unfold JackpotService.contributeToJackpot
      rw [if_neg (not_lt_of_ge (mul_nonneg hwager hrate))]
      dsimp only []
      rw [find?_map_congr (q := fun p => p.group == grp && p.level == p0.level)
        (g := fun (p : JackpotPool) =>
          if (p.group == grp && p.level == p0.level) = true then
            { p with currentValue := p.currentValue + wager * p0.contributionRate }
          else p)
        (hkeyadj (fun p => { p with
          currentValue := p.currentValue + wager * p0.contributionRate })
          (fun a => ⟨rfl, rfl⟩))]
      rw [hfind]
      simp only [Option.map_some', if_pos hkey]
    · dsimp only []
      rw [find?_map_congr (q := fun p => p.group == grp && p.level == p0.level)
        (g := fun (p : JackpotPool) =>
          if (p.group == grp && p.level == p0.level) = true then
            { p with currentValue := p.currentValue + wager * p0.contributionRate }
          else p)
        (hkeyadj (fun p => { p with
          currentValue := p.currentValue + wager * p0.contributionRate })
          (fun a => ⟨rfl, rfl⟩))]
      rw [hfind]
      simp only [Option.map_some', if_pos hkey]
  · intro u o gid amt db3 haward
    obtain ⟨-, -, -, -, -, -, -, -, hres⟩ := JackpotService.awardJackpot_ok haward
    rcases hres with ⟨hnone, -⟩ | ⟨q0, hq0, hpools3⟩
    · rw [hfind] at hnone; cases hnone
    · rw [hfind] at hq0
      have hq0' : q0 = p0 := (Option.some.inj hq0).symm
      rw [hq0'] at hpools3
      rw [hpools3]
      rw [find?_map_congr (q := fun p => p.group == grp && p.level == p0.level)
        (g := fun (p : JackpotPool) =>
          if (p.group == grp && p.level == p0.level) = true then
            { p with currentValue := toFixed2 p0.seedValue }
          else p)
        (hkeyadj (fun p => { p with currentValue := toFixed2 p0.seedValue })
          (fun a => ⟨rfl, rfl⟩))]
      rw [hfind]
      simp only [Option.map_some', if_pos hkey]
      rw [toFixed2_cents hseed]

/-- C1 counterexample: with the user row missing, the XP-award step throws
after the wager was already debited on the shared connection; the error
surfaces, yet the wallet keeps the debited balance (90, not the original
100) — partial settlement is observable, contradicting the whole-sequence
rollback the spec promises. -/
theorem C1_counterexample :
    (BetService.placeBet dbMissingUser inA outLoss false).1
      = Except.error "User not found" ∧
    WalletService.getWalletBalances dbMissingUser 1 1
      = some { realBalance := 100, bonusBalance := 50 } ∧
    WalletService.getWalletBalances
        (BetService.placeBet dbMissingUser inA outLoss false).2 1 1
      = some { realBalance := 90, bonusBalance := 50 } := by
  refine ⟨?_, ?_, ?_⟩ <;> with_unfolding_all decide

/-- C1 witness: on the erroring run from `dbMissingUser` the transactional
tables come back unchanged. -/
theorem C1_witness :
    (BetService.placeBet dbMissingUser inA outLoss false).2.bonusTasks
      = dbMissingUser.bonusTasks ∧
    (BetService.placeBet dbMissingUser inA outLoss false).2.betLogs
      = dbMissingUser.betLogs := by
  have hfst : (BetService.placeBet dbMissingUser inA outLoss false).1
      = Except.error "User not found" := by
    with_unfolding_all decide
  have h : BetService.placeBet dbMissingUser inA outLoss false
      = (Except.error "User not found",
         (BetService.placeBet dbMissingUser inA outLoss false).2) := by
    rw [← hfst]
  exact C1_error_rolls_back_tx_tables_only h

/-- C2 counterexample: on a losing real-balance bet with cashback, the logged
snapshots give post − pre = −9 while win − wager = −10, and the bonus balance
moved (50 → 51) on a real-type bet: both the conservation equation and the
frame condition of the claim fail once the cashback credit lands between the
snapshots. -/
theorem C2_counterexample :
    ((BetService.placeBet dbCashback inA outLoss false).2.betLogs.map fun l =>
        (l.preRealBalance, l.preBonusBalance, l.postRealBalance,
         l.postBonusBalance, l.win, l.wager))
      = [(100, 50, 90, 51, 0, 10)] ∧
    ((BetService.placeBet dbCashback inA outLoss false).2.betLogs.map fun l =>
        l.betType) = [BetType.real] ∧
    ¬(((90 : ℚ) + 51) - (100 + 50) = 0 - 10) ∧
    ¬((51 : ℚ) = 50) := by
  refine ⟨by with_unfolding_all decide, by with_unfolding_all decide,
    by norm_num, by norm_num⟩

/-- C2 witness: the amended conservation law applied to the winning bet from
`dbCashback` on `outWin15` (no cashback: the win covers the wager). -/
theorem C2_witness :
    ∃ log : BetLog,
      (BetService.placeBet dbCashback inA outWin15 false).2.betLogs
        = dbCashback.betLogs ++ [log] ∧
      (log.postRealBalance + log.postBonusBalance) -
        (log.preRealBalance + log.preBonusBalance) = log.win - log.wager ∧
      (log.betType = BetType.real → log.postBonusBalance = log.preBonusBalance) ∧
      (log.betType = BetType.bonus → log.postRealBalance = log.preRealBalance) ∧
      log.win = resW.outcome.winAmount ∧ log.wager = inA.wager := by
  have hfst : (BetService.placeBet dbCashback inA outWin15 false).1
      = Except.ok resW := by
    with_unfolding_all decide
  have h : BetService.placeBet dbCashback inA outWin15 false
      = (Except.ok resW, (BetService.placeBet dbCashback inA outWin15 false).2) := by
    rw [← hfst]
  exact C2_settled_delta_no_cashback
    (by intro p hp; rw [show dbCashback.pools = [] from rfl] at hp; cases hp)
    (by with_unfolding_all decide) h

/-- C3 counterexample: the spec's chooser refuses a bonus-funded bet when the
game does not permit bonus play, yet from a wallet with no real funds the
engine settles a bonus-type bet regardless — no permission flag exists in the
source for the choice to consult. -/
theorem C3_counterexample :
    specChooseBetType false 0 50 10 = Except.error "Insufficient funds" ∧
    ((BetService.placeBet dbBonusOnly inA outPush false).2.betLogs.map fun l =>
        l.betType) = [BetType.bonus] ∧
    (BetService.placeBet dbBonusOnly inA outPush false).1.isOk = true := by
  refine ⟨?_, ?_, ?_⟩ <;> with_unfolding_all decide

/-- C3 witness: with both balances short of the wager, `placeBet` fails
`Insufficient funds` and mutates nothing. -/
theorem C3_witness :
    BetService.placeBet dbShortBoth inA outLoss false
      = (Except.error "Insufficient funds", dbShortBoth) := by
  refine (C3_bet_type_choice (g := gameA)
    (w := { realBalance := 0, bonusBalance := 5 })
    ?_ ?_ ?_ ?_).1 ⟨?_, ?_⟩ <;> with_unfolding_all decide

set_option maxRecDepth 2000 in
/-- C5 counterexample: the spec's scenario (pool at 1000, base win 50)
promises a reported win of exactly 1050, but the engine pays 1050.1 — the
award reads the pool *after* this wager's own 0.1 contribution — and the
pool is then reset to its seed. -/
theorem C5_counterexample :
    ((BetService.placeBet dbJack inA outJack false).2.betLogs.map fun l => l.win)
      = [10501/10] ∧
    ¬((10501 : ℚ)/10 = 1050) ∧
    ((BetService.placeBet dbJack inA outJack false).2.pools.map fun p =>
        p.currentValue) = [100] := by
  refine ⟨by with_unfolding_all rfl, by norm_num, by with_unfolding_all rfl⟩

set_option maxRecDepth 2000 in
/-- C5 witness: the amended award law applied to the jackpot win from
`dbJack` on `outJack`. -/
theorem C5_witness :
    resJ.outcome.winAmount
      = outJack.winAmount + (poolG.currentValue + inA.wager * poolG.contributionRate) ∧
    resJ.jackpotContribution = inA.wager * poolG.contributionRate ∧
    (BetService.placeBet dbJack inA outJack false).2.pools.find?
        (fun p => p.group == 1 && p.level == JackpotLevel.grand)
      = some { poolG with currentValue := poolG.seedValue } ∧
    (BetService.placeBet dbJack inA outJack false).2.jackpotWins
      = dbJack.jackpotWins ++
        [{ group := 1, level := JackpotLevel.grand, userId := inA.userId,
           operatorId := inA.operatorId, gameId := inA.gameId,
           amount := poolG.currentValue + inA.wager * poolG.contributionRate }] := by
  have hfst : (BetService.placeBet dbJack inA outJack false).1 = Except.ok resJ := by
    with_unfolding_all rfl
  have h : BetService.placeBet dbJack inA outJack false
      = (Except.ok resJ, (BetService.placeBet dbJack inA outJack false).2) := by
    rw [← hfst]
  exact C5_jackpot_award (g := gameJ) (by with_unfolding_all decide)
    (by with_unfolding_all decide)
    (by with_unfolding_all decide) (by with_unfolding_all decide)
    (by with_unfolding_all decide) (by with_unfolding_all decide)
    (by with_unfolding_all decide) (by with_unfolding_all decide)
    ⟨10000, by norm_num [poolG]⟩ h

set_option maxRecDepth 2000 in
/-- C6 witness: the contribution-and-reset law applied to the grand pool of
`dbJack` for a 10-unit wager. -/
theorem C6_witness :
    (poolG.level, 10 * poolG.contributionRate)
      ∈ JackpotService.calculateContributions dbJack 10 1 ∧
    (∃ db2, JackpotService.contributeToJackpot dbJack 1 poolG.level
        (10 * poolG.contributionRate)
        = .ok (poolG.currentValue + 10 * poolG.contributionRate, db2) ∧
      db2.pools.find? (fun p => p.group == 1 && p.level == poolG.level)
        = some { poolG with
            currentValue := poolG.currentValue + 10 * poolG.contributionRate }) ∧
    (∀ u o gid amt db3,
      JackpotService.awardJackpot dbJack 1 poolG.level u o gid amt = .ok db3 →
      db3.pools.find? (fun p => p.group == 1 && p.level == poolG.level)
        = some { poolG with currentValue := poolG.seedValue }) :=
  C6_contribution_and_reset (by with_unfolding_all decide)
    (by with_unfolding_all decide) (by with_unfolding_all decide)
    (by with_unfolding_all decide) (by with_unfolding_all decide)
    (by with_unfolding_all decide) ⟨10000, by norm_num [poolG]⟩

/-- C7 counterexample: the broadcast throw happens *inside* the transaction
callback, so a delivery failure turns an otherwise fully settled bet (same
store, `notifyFails := false` succeeds) into an error, rolls the bet record
back, and still leaves the shared-connection wallet write (bonus 50 → 55) in
place — delivery failure is neither swallowed nor free of settlement
effects. -/
theorem C7_counterexample :
    (BetService.placeBet dbBonusOnly inA outWin15 true).1
      = Except.error "Notification delivery failed" ∧
    (BetService.placeBet dbBonusOnly inA outWin15 true).2.betLogs = [] ∧
    WalletService.getWalletBalances
        (BetService.placeBet dbBonusOnly inA outWin15 true).2 1 1
      = some { realBalance := 0, bonusBalance := 55 } ∧
    (BetService.placeBet dbBonusOnly inA outWin15 false).1.isOk = true := by
  refine ⟨?_, ?_, ?_, ?_⟩ <;> with_unfolding_all decide

/-- C7 witness: on any run with a failing notifier from `dbBonusOnly`, no
result is returned and the transactional tables are restored. -/
theorem C7_witness :
    (∀ r : BetResult,
      (BetService.placeBet dbBonusOnly inA outPush true).1 ≠ Except.ok r) ∧
    (BetService.placeBet dbBonusOnly inA outPush true).2.bonusTasks
      = dbBonusOnly.bonusTasks ∧
    (BetService.placeBet dbBonusOnly inA outPush true).2.betLogs
      = dbBonusOnly.betLogs :=
  C7_notify_failure_aborts_bet Prod.mk.eta.symm

/-- C8 counterexample: completing a task whose holder has already wagered
more than the awarded amount makes the claim's remainder
`awardedAmount − wageredBeforeThisBet` negative (100 − 150 = −50); the claim
says that remainder is credited to the real balance, but the source credits
only a positive remainder and leaves the wallet untouched. -/
theorem C8_counterexample :
    (updateWageringProgress 1 1 BetType.bonus 60 dbWagering).1
      = Except.ok (some { taskId := 1, taskType := "deposit_bonus",
                          wagered := 210, required := 200, isCompleted := true }) ∧
    WalletService.getWalletBalances
        (updateWageringProgress 1 1 BetType.bonus 60 dbWagering).2 1 1
      = some { realBalance := 10, bonusBalance := 60 } ∧
    ¬(0 < (100 : ℚ) - 150) := by
  refine ⟨by with_unfolding_all decide, by with_unfolding_all decide, by norm_num⟩

/-- C8 witness: the amended wagering-tracker law applied to the near-complete
task `taskPos` of `dbConvert` under a 20-unit bonus wager. -/
theorem C8_witness :
    updateWageringProgress 1 1 BetType.real 20 dbConvert = (.ok none, dbConvert) ∧
    taskPos.isCompleted = false ∧
    (∀ wp db', updateWageringProgress 1 1 BetType.bonus 20 dbConvert = (.ok wp, db') →
      wp = some { taskId := taskPos.id, taskType := taskPos.taskType,
                  wagered := taskPos.wagered + 20,
                  required := taskPos.wageringRequired,
                  isCompleted :=
                    decide (taskPos.wageringRequired ≤ taskPos.wagered + 20) } ∧
      db'.bonusTasks = dbConvert.bonusTasks.map (fun x =>
        if x.id == taskPos.id then
          { x with
            wagered := taskPos.wagered + 20,
            isCompleted :=
              decide (taskPos.wageringRequired ≤ taskPos.wagered + 20) }
        else x) ∧
      (¬(taskPos.wageringRequired ≤ taskPos.wagered + 20) →
        db'.wallets = dbConvert.wallets) ∧
      (taskPos.wageringRequired ≤ taskPos.wagered + 20 →
        taskPos.awardedAmount - taskPos.wagered ≤ 0 →
        db'.wallets = dbConvert.wallets) ∧
      (taskPos.wageringRequired ≤ taskPos.wagered + 20 →
        0 < taskPos.awardedAmount - taskPos.wagered →
        ∀ w, WalletService.getWalletBalances dbConvert 1 1 = some w →
          WalletService.getWalletBalances db' 1 1
            = some { w with
                realBalance :=
                  w.realBalance + (taskPos.awardedAmount - taskPos.wagered) })) :=
  C8_wagering_tracker (t := taskPos) (by with_unfolding_all decide)

/-- C9 witness: the debit-safety law applied to the funded wallet of
`dbWallet9` for a real-balance debit of 10. -/
theorem C9_witness :
    (WalletService.getWalletBalances dbWallet9 1 1 = none →
      WalletService.debitFromWallet dbWallet9 1 1 10 true
        = .error "Wallet not found") ∧
    (∀ w, WalletService.getWalletBalances dbWallet9 1 1 = some w →
      ((if true then w.realBalance else w.bonusBalance) < 10 →
        WalletService.debitFromWallet dbWallet9 1 1 10 true
          = .error "Insufficient balance") ∧
      (10 ≤ (if true then w.realBalance else w.bonusBalance) →
        ∃ db', WalletService.debitFromWallet dbWallet9 1 1 10 true
            = .ok (debitAdj 10 true w, db') ∧
          WalletService.getWalletBalances db' 1 1 = some (debitAdj 10 true w) ∧
          (true = true →
            (debitAdj 10 true w).realBalance = w.realBalance - 10 ∧
            (debitAdj 10 true w).bonusBalance = w.bonusBalance) ∧
          (true = false →
            (debitAdj 10 true w).bonusBalance = w.bonusBalance - 10 ∧
            (debitAdj 10 true w).realBalance = w.realBalance) ∧
          (0 ≤ w.realBalance → 0 ≤ w.bonusBalance →
            0 ≤ (debitAdj 10 true w).realBalance ∧
            0 ≤ (debitAdj 10 true w).bonusBalance))) :=
  C9_debit_safety (by norm_num)

/-- C10 witness: the bonus-conversion frame law applied to `taskPos` of
`dbConvert`: the 50-unit remainder lands on the real balance and the
combined total grows by exactly that remainder. -/
theorem C10_witness :
    ∃ wp db', updateWageringProgress 1 1 BetType.bonus 20 dbConvert = (.ok wp, db') ∧
      WalletService.getWalletBalances db' 1 1
        = some { realBalance := 10 + (taskPos.awardedAmount - taskPos.wagered),
                 bonusBalance := 60 } ∧
      (60 : ℚ) = 60 ∧
      (10 + (taskPos.awardedAmount - taskPos.wagered)) + 60
        = ((10 : ℚ) + 60) + (taskPos.awardedAmount - taskPos.wagered) :=
  C10_conversion_increases_total (t := taskPos)
    (w := { realBalance := 10, bonusBalance := 60 })
    (by with_unfolding_all decide) (by with_unfolding_all decide)
    (by with_unfolding_all decide) (by with_unfolding_all decide)
